import Mathlib

/-
Verification development for the ParallelComputingSimulation repository
(a multi-country epidemic simulation).

The Python sources under `simulation/` are shallowly embedded here:

* `models.py`     → `Patient`, `Country`, `Patient.reset`,
                    `deathProbability`, `initial_vaccination`
* `disease.py`    → `allocate_treatment_if_budget`, `infection_step`
* `simulation.py` → `run_vaccination_campaign`, `seed_virus`
* `migration.py`  → `try_travel` (over an id-indexed world `MWorld`)
* `workers.py`    → `worker_travel_step`

Randomness (`random.random`, `random.randint`, `random.sample`,
`random.choice`) is made explicit: every draw the Python code performs is a
parameter (an "oracle"), so each embedded operation is a pure function of
the state and the drawn values.  Python ints are `Int`, Python floats that
carry probabilities are `ℚ` (the float expressions in the source are simple
products of decimal constants, modelled exactly as rationals), and Python
`//` on ints is `Int.fdiv` (floor division).  Mutation of shared objects is
explicit state passing; rosters are Lean lists and "object identity" inside
one country is the roster index.

Migration moves one patient object between two countries' rosters, so the
migration development (`MWorld`) keeps patients in an id-indexed store and
gives every country a roster of patient ids; the patient's `country` field
is the back-reference that `migration.py` reads and updates.
-/

namespace EpiSim

/-! ## Disease states (`Patient.state` strings in `models.py`) -/

inductive PState where
  | healthy
  | infected
  | recovered
  | dead
deriving DecidableEq, Repr, Inhabited

/-! ## Patient (`models.py`, class `Patient`)

Fixed demographics (`sex`, `age`, `mask`, `respiratory_disease`,
`is_superspreader`), disease state, infection clock, intervention flags and
the country back-reference (an index into the world's country list; it is
only read and written by the migration code).  `sex` keeps the source's
`"M"`/`"F"` encoding. -/

structure Patient where
  nationality : String
  country : Nat
  sex : String
  age : Nat
  mask : Bool
  respiratory_disease : Bool
  is_superspreader : Bool
  state : PState
  days_infected : Nat
  infectious_period : Option Nat
  hospitalized : Bool
  vaccinated : Bool
  vaccine_type : Option String
  has_treatment : Bool
  treatment_type : Option String
deriving DecidableEq, Repr, Inhabited

/-! ## Configuration constants (`config.py`), as exact rationals/integers -/

def TRANSMISSION_BASE : ℚ := 3/10

def CONTACTS_RANGE : Nat × Nat := (2, 5)

def SUPERSPREADER_MULTIPLIER : Nat := 3

def MASK_EFFECTIVENESS : ℚ := 1/2

def INFECTIOUS_PERIOD_RANGE : Nat × Nat := (4, 7)

def DAILY_DEATH_MULTIPLIER : ℚ := 1/5

def LOCKDOWN_CONTACT_FACTOR : ℚ := 2/5

def VARIANT_DAY : Nat := 15

def VARIANT_TRANSMISSION_MULTIPLIER : ℚ := 3/2

def VARIANT_VACCINE_EFFECTIVENESS_DROP : ℚ := 3/10

def treatment_effectiveness : List (String × ℚ) := [("T1", 3/4), ("T2", 3/5)]

def vaccine_effectiveness : List (String × ℚ) := [("A", 9/10), ("B", 7/10), ("C", 1/2)]

def VACCINATION_CAMPAIGN_DAY : Nat := 10

def VACCINE_COST : List (String × Int) := [("A", 3), ("B", 2), ("C", 1)]

def TREATMENT_COST : Int := 1

def INITIAL_INFECTED_FRAC : ℚ := 1/10

/-- Association-list lookup with a default value; models Python
`dict.get(key, default)` (and, for keys that are present, `dict[key]`). -/
def lookupD {β : Type} (l : List (String × β)) (k : String) (d : β) : β :=
  match l.find? (fun kv => kv.1 == k) with
  | some kv => kv.2
  | none => d

/-- The concrete `VACCINE_COST` dict of `config.py` as a function; a missing
brand maps to 0 exactly as `VACCINE_COST.get(main_vaccine, 0)` does. -/
def vaccineCostF (v : String) : Int := lookupD VACCINE_COST v 0

/-! ## `Patient.reset` and `Patient.death_probability` (`models.py`) -/

/-- Source `models.py`, `Patient.reset`: the fields the source assigns, verbatim.
(The source does not touch `vaccinated` / `vaccine_type`.) -/
def Patient.reset (p : Patient) : Patient :=
  { p with
    state := PState.healthy
    days_infected := 0
    infectious_period := none
    has_treatment := false
    treatment_type := none
    hospitalized := false }

/-- Source `models.py`, `Patient.death_probability`: base 0.02, ×3 if age > 60 else
×2 if age > 40, ×1.15 if male, ×2 if respiratory disease. -/
def deathProbability (p : Patient) : ℚ :=
  let base : ℚ := 1/50
  let base := if 60 < p.age then base * 3 else if 40 < p.age then base * 2 else base
  let base := if p.sex = "M" then base * (23/20) else base
  if p.respiratory_disease then base * 2 else base

/-! ## Country (`models.py`, class `Country`)

The roster is owned by the country (`patients : List Patient`); economic and
capacity state are Python ints, hence `Int`.  The lock, db id and mask
probability play no role in the embedded operations. -/

structure Country where
  name : String
  vaccines : List String
  treatments : List String
  vaccine : String
  treatment : String
  lockdown_days : List (Nat × Nat)
  patients : List Patient
  base_transmission : ℚ
  budget_total : Int
  budget_remaining : Int
  budget_spent_vaccines : Int
  budget_spent_treatments : Int
  hospital_capacity : Int
  current_hospitalized : Int
  max_daily_treatments : Int
  treatments_given_today : Int
  daily_vaccination_capacity : Int
  vaccinated_today : Int
  travellers_in_today : Int
  travellers_out_today : Int
  vaccine_units_given : List (String × Int)
deriving DecidableEq, Repr, Inhabited

/-- Source `disease.py` / `simulation.py`: `high_risk = (age >= 65) or
respiratory_disease`, recomputed wherever the source computes it. -/
def highRisk (p : Patient) : Prop := 65 ≤ p.age ∨ p.respiratory_disease

instance (p : Patient) : Decidable (highRisk p) := by
  unfold highRisk; infer_instance

/-- Increment one brand's entry of the `vaccine_units_given` table
(`self.vaccine_units_given[vtype] += 1`). -/
def bumpUnits (l : List (String × Int)) (k : String) : List (String × Int) :=
  l.map (fun kv => if kv.1 == k then (kv.1, kv.2 + 1) else kv)

/-! ## Resource allocator (`disease.py`, `allocate_treatment_if_budget`)

The single `random.choice(country.treatments)` draw is the `choice`
parameter (an arbitrary natural, reduced modulo the catalog length). -/

/-- The affordability gate and the reserve-protection rule of
`allocate_treatment_if_budget`.  `budget_remaining > 0.3 * budget_total` is
the exact rational comparison `3 * total < 10 * remaining`. -/
def grantCond (c : Country) (p : Patient) : Prop :=
  (TREATMENT_COST ≤ c.budget_remaining ∧
      c.treatments_given_today < c.max_daily_treatments) ∧
    (highRisk p ∨ 3 * c.budget_total < 10 * c.budget_remaining)

instance (c : Country) (p : Patient) : Decidable (grantCond c p) := by
  unfold grantCond; infer_instance

/-- Tail of `allocate_treatment_if_budget`, run on every non-empty-catalog
path: hospitalize iff high-risk and below capacity, then store the patient
back into the roster slot. -/
def finishHosp (c : Country) (i : Nat) (p : Patient) : Country :=
  if highRisk p ∧ c.current_hospitalized < c.hospital_capacity then
    { c with
      current_hospitalized := c.current_hospitalized + 1
      patients := c.patients.set i { p with hospitalized := true } }
  else
    { c with patients := c.patients.set i p }

/-- Source `disease.py`, `allocate_treatment_if_budget(country, patient)`; the
patient is roster slot `i`.  Mirrors the source line by line: clear the
hospitalized flag, deny on an empty catalog, otherwise grant by
`grantCond` (picking the treatment via the `choice` draw) and finally
hospitalize high-risk patients below capacity. -/
def allocate_treatment_if_budget (c : Country) (i : Nat) (choice : Nat) : Country :=
  let p0 := c.patients.getD i default
  let p1 := { p0 with hospitalized := false }
  if c.treatments = [] then
    { c with patients := c.patients.set i { p1 with has_treatment := false, treatment_type := none } }
  else if grantCond c p1 then
    let p2 := { p1 with
      has_treatment := true
      treatment_type := some (c.treatments.getD (choice % c.treatments.length) "") }
    let c2 := { c with
      budget_remaining := c.budget_remaining - TREATMENT_COST
      budget_spent_treatments := c.budget_spent_treatments + TREATMENT_COST
      treatments_given_today := c.treatments_given_today + 1 }
    finishHosp c2 i p2
  else
    finishHosp c i { p1 with has_treatment := false, treatment_type := none }

/-! ## Vaccination campaign (`simulation.py`, `run_vaccination_campaign`)

Python's `list.sort(key=risk_key, reverse=True)` is a stable descending
sort.  On the candidate list (strictly increasing roster indices, hence no
duplicates) the stable descending sort is the unique permutation that is
pairwise ordered by `candBefore`: strictly greater key first, equal keys in
roster (index) order.  `List.insertionSort` by `candBefore` computes
exactly that permutation. -/

/-- The key `risk_key(p) = (1 if p.respiratory_disease or p.age >= 65 else 0, p.age)`. -/
def riskKey (p : Patient) : Nat × Nat := (if highRisk p then 1 else 0, p.age)

/-- Strict lexicographic order on sort keys (Python tuple comparison). -/
def keyLt (a b : Nat × Nat) : Prop := a.1 < b.1 ∨ (a.1 = b.1 ∧ a.2 < b.2)

instance (a b : Nat × Nat) : Decidable (keyLt a b) := by
  unfold keyLt; infer_instance

/-- Roster index `a` precedes roster index `b` in the campaign's ranking:
strictly greater key, or equal key and `a` no later in the roster. -/
def candBefore (c : Country) (a b : Nat) : Prop :=
  keyLt (riskKey (c.patients.getD b default)) (riskKey (c.patients.getD a default)) ∨
    (riskKey (c.patients.getD a default) = riskKey (c.patients.getD b default) ∧ a ≤ b)

instance (c : Country) : DecidableRel (candBefore c) := fun a b => by
  unfold candBefore; infer_instance

/-- Candidate roster indices: alive and not yet vaccinated, in roster order. -/
def risk_candidates (c : Country) : List Nat :=
  (List.range c.patients.length).filter
    (fun j => decide ((c.patients.getD j default).state ≠ PState.dead ∧
      (c.patients.getD j default).vaccinated = false))

/-- The `for p in to_vaccinate` loop of `run_vaccination_campaign`: break if
the remaining budget no longer covers one dose, skip already vaccinated
patients, otherwise vaccinate with the main vaccine and pay for the dose. -/
def vacLoop (vcost : String → Int) (main : String) : Country → List Nat → Country
  | c, [] => c
  | c, j :: rest =>
    if c.budget_remaining < vcost main then c
    else
      let p := c.patients.getD j default
      if p.vaccinated then vacLoop vcost main c rest
      else
        vacLoop vcost main
          { c with
            patients := c.patients.set j { p with vaccinated := true, vaccine_type := some main }
            budget_remaining := c.budget_remaining - vcost main
            budget_spent_vaccines := c.budget_spent_vaccines + vcost main
            vaccinated_today := c.vaccinated_today + 1
            vaccine_units_given := bumpUnits c.vaccine_units_given main } rest

/-- Source `simulation.py`, `Simulation.run_vaccination_campaign(country, day)`.
`vcost` is the `VACCINE_COST` dict (with its `.get(·, 0)` default), and
Python's `//` on the non-negative int budget is `Int.fdiv`. -/
def run_vaccination_campaign (vcost : String → Int) (c : Country) (day : Nat) : Country :=
  if day < VACCINATION_CAMPAIGN_DAY then c
  else if c.vaccines = [] then c
  else
    let main := c.vaccine
    let unit_cost := vcost main
    if unit_cost ≤ 0 then c
    else
      let max_by_budget := Int.fdiv c.budget_remaining unit_cost
      if max_by_budget ≤ 0 then c
      else if c.daily_vaccination_capacity ≤ 0 then c
      else
        let max_to_vaccinate := min max_by_budget c.daily_vaccination_capacity
        let candidates := risk_candidates c
        if candidates = [] then c
        else
          vacLoop vcost main c
            ((List.insertionSort (candBefore c) candidates).take max_to_vaccinate.toNat)

/-! ## Initial vaccination (`models.py`, `Country._initial_vaccination`)

One Bernoulli roll and one `random.choice` draw per roster position. -/

/-- The `for p in self.patients` loop of `_initial_vaccination`: with
probability 1/2 and a positive budget, pick an affordable brand at random;
`break` when nothing is affordable, re-check the budget (`continue`), then
vaccinate and pay. -/
def initVacLoop (vcost : String → Int) (roll : Nat → ℚ) (choice : Nat → Nat) :
    Country → List Nat → Country
  | c, [] => c
  | c, j :: rest =>
    if roll j < 1/2 ∧ 0 < c.budget_remaining then
      let affordable := c.vaccines.filter (fun v => decide (vcost v ≤ c.budget_remaining))
      if affordable = [] then c
      else
        let vtype := affordable.getD (choice j % affordable.length) ""
        if c.budget_remaining < vcost vtype then initVacLoop vcost roll choice c rest
        else
          let p := c.patients.getD j default
          initVacLoop vcost roll choice
            { c with
              patients := c.patients.set j { p with vaccinated := true, vaccine_type := some vtype }
              budget_remaining := c.budget_remaining - vcost vtype
              budget_spent_vaccines := c.budget_spent_vaccines + vcost vtype
              vaccine_units_given := bumpUnits c.vaccine_units_given vtype } rest
    else initVacLoop vcost roll choice c rest

/-- Source `models.py`, `Country._initial_vaccination`. -/
def initial_vaccination (vcost : String → Int) (roll : Nat → ℚ) (choice : Nat → Nat)
    (c : Country) : Country :=
  if c.vaccines = [] then c
  else initVacLoop vcost roll choice c (List.range c.patients.length)

/-! ## Disease engine (`disease.py`, `infection_step`)

The focal patient is roster slot `i`.  Every random draw of the source is a
field of `InfOracle`; the `random.sample` of the healthy snapshot is given
as positions into that snapshot (`sampleIdx`), duplicates or out-of-range
positions being harmless because the source re-checks the contact's state
before infecting it. -/

structure InfOracle where
  periodDraw : Nat
  contactsCount : Nat
  sampleIdx : List Nat
  infectRoll : Nat → ℚ
  contactPeriod : Nat → Nat
  treatChoice : Nat → Nat
  deathRoll : ℚ
  finalRoll : ℚ
  finalDeathRoll : ℚ

/-- First-activation draw: `if p.infectious_period is None: p.infectious_period
= random.randint(*INFECTIOUS_PERIOD_RANGE)`. -/
def assignPeriod (p : Patient) (draw : Nat) : Patient :=
  match p.infectious_period with
  | none => { p with infectious_period := some draw }
  | some _ => p

/-- Roster indices of the currently healthy patients (the snapshot
`healthy_people`, identified by roster position). -/
def healthyIdx (c : Country) : List Nat :=
  (List.range c.patients.length).filter
    (fun j => decide ((c.patients.getD j default).state = PState.healthy))

/-- The draw `contacts_count`: the uniform draw, scaled down under lockdown with a
floor of 1 (`max(1, int(contacts_count * LOCKDOWN_CONTACT_FACTOR))`) and
multiplied for superspreaders. -/
def contactsCountDraw (c : Country) (day : Nat) (draw : Nat) (superspreader : Bool) : Nat :=
  let n := draw
  let n :=
    if c.lockdown_days.any (fun se => decide (se.1 ≤ day) && decide (day ≤ se.2)) then
      max 1 (Int.floor ((n : ℚ) * LOCKDOWN_CONTACT_FACTOR)).toNat
    else n
  if superspreader then n * SUPERSPREADER_MULTIPLIER else n

/-- Per-contact transmission probability: country base rate, one mask factor
per masked party, and the vaccine factor with the variant-day efficacy
drop (floored at 0). -/
def transmissionProb (c : Country) (pmask : Bool) (target : Patient) (day : Nat) : ℚ :=
  let prob := c.base_transmission
  let prob := if target.mask then prob * (1 - MASK_EFFECTIVENESS) else prob
  let prob := if pmask then prob * (1 - MASK_EFFECTIVENESS) else prob
  if target.vaccinated then
    let vtype := target.vaccine_type.getD c.vaccine
    let eff := lookupD vaccine_effectiveness vtype 0
    let eff := if VARIANT_DAY ≤ day then max 0 (eff - VARIANT_VACCINE_EFFECTIVENESS_DROP) else eff
    prob * (1 - eff)
  else prob

/-- One iteration of the `for target in contacts` loop: Bernoulli draw
against the transmission probability, transactional re-check that the
target is still healthy, then infect it and route it through the
allocator. -/
def infect_contact (c : Country) (day : Nat) (pmask : Bool) (j : Nat)
    (roll : ℚ) (per : Nat) (choice : Nat) : Country :=
  let target := c.patients.getD j default
  if roll < transmissionProb c pmask target day then
    if target.state = PState.healthy then
      let t1 := { target with
        state := PState.infected, days_infected := 0, infectious_period := some per }
      allocate_treatment_if_budget { c with patients := c.patients.set j t1 } j choice
    else c
  else c

/-- The whole contact loop; the first component of each pair is the loop
position (used to index the oracle draws), the second the roster index. -/
def infect_contacts (day : Nat) (pmask : Bool) (o : InfOracle) :
    Country → List (Nat × Nat) → Country
  | c, [] => c
  | c, (pos, j) :: rest =>
    infect_contacts day pmask o
      (infect_contact c day pmask j (o.infectRoll pos) (o.contactPeriod pos) (o.treatChoice pos))
      rest

/-- Daily death probability while infected: baseline × multiplier, halved if
hospitalized, else ×1.5 if high risk. -/
def dailyDeathProb (p : Patient) : ℚ :=
  let d := deathProbability p * DAILY_DEATH_MULTIPLIER
  if p.hospitalized then d * (1/2) else if highRisk p then d * (3/2) else d

/-- End-of-episode outcome: treatment draw first (recovered on success),
otherwise the final death draw against `baseline × 0.7` with the same
hospitalized / high-risk scaling. -/
def finalOutcome (p : Patient) (r r2 : ℚ) : PState :=
  let treat_prob := if p.has_treatment then lookupD treatment_effectiveness (p.treatment_type.getD "") 0 else 0
  let bf := deathProbability p * (7/10)
  let bf := if p.hospitalized then bf * (1/2) else if highRisk p then bf * (3/2) else bf
  if r < treat_prob then PState.recovered
  else if r2 < bf then PState.dead
  else PState.recovered

/-- Release the patient's hospital slot if one is counted, then write the
final state `s` into roster slot `i` (the locked tail of both the death
branch and the episode-end branch of `infection_step`). -/
def releaseAndSet (c : Country) (i : Nat) (p : Patient) (s : PState) : Country :=
  if p.hospitalized ∧ 0 < c.current_hospitalized then
    { c with
      current_hospitalized := c.current_hospitalized - 1
      patients := c.patients.set i { p with hospitalized := false, state := s } }
  else { c with patients := c.patients.set i { p with state := s } }

/-- Source `disease.py`, `infection_step(patient, country, day)` for the patient in
roster slot `i`: no-op unless infected; assign the infectious period on
first activation; spread to sampled healthy contacts while contagious;
daily death draw; otherwise advance the infection clock and resolve the
episode on its final day. -/
def infection_step (c0 : Country) (i day : Nat) (o : InfOracle) : Country :=
  let p := c0.patients.getD i default
  if p.state = PState.healthy ∨ p.state = PState.recovered ∨ p.state = PState.dead then c0
  else
    let p := assignPeriod p o.periodDraw
    let c := { c0 with patients := c0.patients.set i p }
    let hIdx := healthyIdx c
    let c :=
      if p.days_infected < p.infectious_period.getD 0 then
        let k := min hIdx.length (contactsCountDraw c day o.contactsCount p.is_superspreader)
        let contacts := (o.sampleIdx.take k).filterMap (fun t => hIdx.get? t)
        infect_contacts day p.mask o c contacts.enum
      else c
    let p := c.patients.getD i default
    if o.deathRoll < dailyDeathProb p then
      releaseAndSet c i p PState.dead
    else
      let p := { p with days_infected := p.days_infected + 1 }
      if p.infectious_period.getD 0 ≤ p.days_infected then
        releaseAndSet c i p (finalOutcome p o.finalRoll o.finalDeathRoll)
      else
        { c with patients := c.patients.set i p }

/-! ## Virus seeding (`simulation.py`, `Simulation.seed_virus`) -/

structure SeedOracle where
  sample : List Nat
  period : Nat → Nat
  choice : Nat → Nat

/-- One seeded infection: set the patient infected with a fresh infectious
period, then route it through the allocator. -/
def seedOne (c : Country) (j : Nat) (per : Nat) (choice : Nat) : Country :=
  let p := c.patients.getD j default
  let p1 := { p with state := PState.infected, infectious_period := some per }
  allocate_treatment_if_budget { c with patients := c.patients.set j p1 } j choice

/-- The `for p in random.sample(...)` loop (position, roster index). -/
def seedLoop (o : SeedOracle) : Country → List (Nat × Nat) → Country
  | c, [] => c
  | c, (pos, j) :: rest => seedLoop o (seedOne c j (o.period pos) (o.choice pos)) rest

/-- Source `simulation.py`, `Simulation.seed_virus`: reset every patient, find the
country named Italy (a `ValueError` if absent), compute
`initial_k = int(len(italy.patients) * INITIAL_INFECTED_FRAC)` and, when
positive, infect a sample of `initial_k` of Italy's patients. -/
def seed_virus (cs0 : List Country) (o : SeedOracle) : Except String (List Country) :=
  let cs := cs0.map (fun c => { c with patients := c.patients.map Patient.reset })
  match cs.findIdx? (fun c => c.name == "Italy") with
  | none => Except.error "Italy should exist to seed the virus"
  | some it =>
    let italy := cs.getD it default
    let initial_k : Int := Int.floor ((italy.patients.length : ℚ) * INITIAL_INFECTED_FRAC)
    if initial_k ≤ 0 then Except.ok cs
    else Except.ok (cs.set it (seedLoop o italy ((o.sample.take initial_k.toNat).enum)))

/-! ## Migration (`migration.py`, `MigrationRouter.try_travel`, and the
travel half of `workers.py`, `process_patient_batch`)

Patients live in an id-indexed store; each country's roster is a list of
patient ids, so removing and appending a patient object becomes erasing and
appending its id.  `roll` is the `random.random()` draw, `prob` the value
of `policy.travel_probability(patient, day)`, and `dest` the country index
chosen by `policy.pick_destination` (or `none`). -/

structure MigCountry where
  roster : List Nat
  travellers_in_today : Int
  travellers_out_today : Int
deriving DecidableEq, Repr, Inhabited

structure MWorld where
  patients : List Patient
  countries : List MigCountry
deriving DecidableEq, Repr, Inhabited

/-- Source `migration.py`, `MigrationRouter.try_travel(patient, policy, day)`. -/
def try_travel (w : MWorld) (pid : Nat) (roll prob : ℚ) (dest : Option Nat) :
    Bool × MWorld :=
  let p := w.patients.getD pid default
  if p.state = PState.dead then (false, w)
  else if prob < roll then (false, w)
  else
    match dest with
    | none => (false, w)
    | some d =>
      if d = p.country then (false, w)
      else
        let origin := p.country
        let oc := w.countries.getD origin default
        if pid ∈ oc.roster then
          let oc1 := { oc with
            roster := oc.roster.erase pid
            travellers_out_today := oc.travellers_out_today + 1 }
          let w1 := { w with countries := w.countries.set origin oc1 }
          let dc := w1.countries.getD d default
          let dc1 := { dc with
            roster := dc.roster ++ [pid]
            travellers_in_today := dc.travellers_in_today + 1 }
          let w2 := { w1 with countries := w1.countries.set d dc1 }
          let p1 := { p with country := d }
          (true, { w2 with patients := w2.patients.set pid p1 })
        else (false, w)

/-- The travel half of `workers.py`, `process_patient_batch`, for one
patient: skip the dead, remember the pre-travel origin, call the router,
and on success increment the origin's outbound and the destination's
inbound counters once more. -/
def worker_travel_step (w : MWorld) (pid : Nat) (roll prob : ℚ) (dest : Option Nat) :
    MWorld :=
  let p := w.patients.getD pid default
  if p.state = PState.dead then w
  else
    let origin := p.country
    let r := try_travel w pid roll prob dest
    if r.1 then
      let w1 := r.2
      let destination := (w1.patients.getD pid default).country
      let oc := w1.countries.getD origin default
      let oc1 := { oc with travellers_out_today := oc.travellers_out_today + 1 }
      let w2 := { w1 with countries := w1.countries.set origin oc1 }
      let dc := w2.countries.getD destination default
      let dc1 := { dc with travellers_in_today := dc.travellers_in_today + 1 }
      { w2 with countries := w2.countries.set destination dc1 }
    else r.2

/-! ## The spec's country invariants (§8 of the spec) -/

/-- Invariants `current_hospitalized ≤ hospital_capacity`, `treatments_given_today ≤
max_daily_treatments`, `budget_remaining ≥ 0`. -/
def CountryInv (c : Country) : Prop :=
  c.current_hospitalized ≤ c.hospital_capacity ∧
    c.treatments_given_today ≤ c.max_daily_treatments ∧
    0 ≤ c.budget_remaining

/-! ## Concrete base values used by the witnesses -/

/-- A plain healthy adult, the base point for concrete witnesses. -/
def basePatient : Patient :=
  { nationality := "Italy"
    country := 0
    sex := "F"
    age := 30
    mask := false
    respiratory_disease := false
    is_superspreader := false
    state := PState.healthy
    days_infected := 0
    infectious_period := none
    hospitalized := false
    vaccinated := false
    vaccine_type := none
    has_treatment := false
    treatment_type := none }

/-- A small concrete country, the base point for concrete witnesses. -/
def baseCountry : Country :=
  { name := "Italy"
    vaccines := ["A"]
    treatments := ["T1"]
    vaccine := "A"
    treatment := "T1"
    lockdown_days := []
    patients := []
    base_transmission := TRANSMISSION_BASE
    budget_total := 850
    budget_remaining := 850
    budget_spent_vaccines := 0
    budget_spent_treatments := 0
    hospital_capacity := 212
    current_hospitalized := 0
    max_daily_treatments := 106
    treatments_given_today := 0
    daily_vaccination_capacity := 56
    vaccinated_today := 0
    travellers_in_today := 0
    travellers_out_today := 0
    vaccine_units_given := [("A", 0), ("B", 0), ("C", 0)] }

/-! ## Generic list helpers -/

theorem getD_set {α : Type} (l : List α) (i j : Nat) (a d : α) :
    (l.set i a).getD j d = if j = i ∧ i < l.length then a else l.getD j d := by
  induction l generalizing i j with
  | nil => simp
  | cons x xs ih =>
    cases i with
    | zero =>
      cases j with
      | zero => simp
      | succ m => simp
    | succ n =>
      cases j with
      | zero => simp
      | succ m =>
        simp only [List.set_cons_succ, List.getD_cons_succ, ih, List.length_cons]
        by_cases h1 : m = n ∧ n < xs.length
        · rw [if_pos h1, if_pos ⟨by rw [h1.1], by omega⟩]
        · rw [if_neg h1, if_neg (by omega)]

theorem getD_set_self {α : Type} (l : List α) (i : Nat) (a d : α) (h : i < l.length) :
    (l.set i a).getD i d = a := by
  rw [getD_set, if_pos ⟨rfl, h⟩]

theorem getD_set_ne {α : Type} (l : List α) (i j : Nat) (a d : α) (h : j ≠ i) :
    (l.set i a).getD j d = l.getD j d := by
  rw [getD_set, if_neg (by tauto)]

theorem map_sum_set {α : Type} (f : α → Nat) (l : List α) (i : Nat) (a d : α)
    (h : i < l.length) :
    ((l.set i a).map f).sum + f (l.getD i d) = (l.map f).sum + f a := by
  induction l generalizing i with
  | nil => simp at h
  | cons x xs ih =>
    cases i with
    | zero => simp [Nat.add_comm, Nat.add_left_comm]
    | succ n =>
      have h1 : n < xs.length := by simpa using h
      have := ih n h1
      simp only [List.set_cons_succ, List.map_cons, List.sum_cons, List.getD_cons_succ]
      omega

theorem countP_set {α : Type} (p : α → Bool) (l : List α) (i : Nat) (a d : α)
    (h : i < l.length) :
    (l.set i a).countP p + (if p (l.getD i d) then 1 else 0) =
      l.countP p + (if p a then 1 else 0) := by
  induction l generalizing i with
  | nil => simp at h
  | cons x xs ih =>
    cases i with
    | zero => simp [List.countP_cons]; omega
    | succ n =>
      have h1 : n < xs.length := by simpa using h
      have := ih n h1
      simp only [List.set_cons_succ, List.countP_cons, List.getD_cons_succ]
      omega

/-! ## Basic facts about the allocator -/

/-- The allocator never changes any patient's disease state. -/
theorem allocate_state_eq (c : Country) (i choice j : Nat) :
    ((allocate_treatment_if_budget c i choice).patients.getD j default).state =
      (c.patients.getD j default).state := by
  unfold allocate_treatment_if_budget finishHosp
  dsimp only
  split_ifs <;> (rw [getD_set]; split_ifs with h <;> simp_all)

/-- The allocator never changes any patient's infection clock. -/
theorem allocate_period_eq (c : Country) (i choice j : Nat) :
    ((allocate_treatment_if_budget c i choice).patients.getD j default).infectious_period =
      (c.patients.getD j default).infectious_period := by
  unfold allocate_treatment_if_budget finishHosp
  dsimp only
  split_ifs <;> (rw [getD_set]; split_ifs with h <;> simp_all)

/-- The allocator touches only roster slot `i`. -/
theorem allocate_other_eq (c : Country) (i choice j : Nat) (h : j ≠ i) :
    (allocate_treatment_if_budget c i choice).patients.getD j default =
      c.patients.getD j default := by
  unfold allocate_treatment_if_budget finishHosp
  dsimp only
  split_ifs <;> simp only [getD_set_ne _ _ _ _ _ h]

/-- The allocator preserves the roster length and the static country fields. -/
theorem allocate_frame (c : Country) (i choice : Nat) :
    (allocate_treatment_if_budget c i choice).patients.length = c.patients.length ∧
    (allocate_treatment_if_budget c i choice).budget_total = c.budget_total ∧
    (allocate_treatment_if_budget c i choice).hospital_capacity = c.hospital_capacity ∧
    (allocate_treatment_if_budget c i choice).max_daily_treatments = c.max_daily_treatments ∧
    (allocate_treatment_if_budget c i choice).base_transmission = c.base_transmission ∧
    (allocate_treatment_if_budget c i choice).vaccinated_today = c.vaccinated_today ∧
    (allocate_treatment_if_budget c i choice).budget_spent_vaccines = c.budget_spent_vaccines := by
  unfold allocate_treatment_if_budget finishHosp
  dsimp only
  split_ifs <;> simp

/-- The allocator preserves the spec's country invariants. -/
theorem allocate_inv (c : Country) (i choice : Nat) (h : CountryInv c) :
    CountryInv (allocate_treatment_if_budget c i choice) := by
  obtain ⟨h1, h2, h3⟩ := h
  unfold allocate_treatment_if_budget finishHosp grantCond
  dsimp only
  split_ifs with g1 g2 g3 g4 <;>
    refine ⟨?_, ?_, ?_⟩ <;> simp_all [CountryInv] <;> omega

/-! ## Claim C8: baseline death probability -/

/-- The age factor of `baseline_death_probability`. -/
def ageFactor (p : Patient) : ℚ := if 60 < p.age then 3 else if 40 < p.age then 2 else 1

/-- The sex factor of `baseline_death_probability`. -/
def sexFactor (p : Patient) : ℚ := if p.sex = "M" then 23/20 else 1

/-- The respiratory-disease factor of `baseline_death_probability`. -/
def respFactor (p : Patient) : ℚ := if p.respiratory_disease then 2 else 1

/-- Claim C8: for every patient, `baseline_death_probability` equals 0.02
multiplied by 3 if age > 60 else by 2 if age > 40, by 1.15 if male, and by
2 with respiratory disease; the factors compose multiplicatively and
order-independently (the product is stated in two different orders); in
particular, for age 70 with respiratory disease and sex female it equals
0.02 × 3 × 2 = 0.12 = 3/25. -/
theorem claim_C8_death_probability :
    (∀ p : Patient,
        deathProbability p = 1/50 * ageFactor p * sexFactor p * respFactor p ∧
        deathProbability p = 1/50 * (respFactor p * (sexFactor p * ageFactor p))) ∧
      deathProbability { basePatient with age := 70, respiratory_disease := true, sex := "F" }
        = 3/25 := by
  constructor
  · intro p
    unfold deathProbability ageFactor sexFactor respFactor
    constructor <;> (dsimp only; split_ifs <;> ring)
  · unfold deathProbability
    norm_num [basePatient]
    decide

/-! ## Claim C7: `Patient.reset` -/

/-- Claim C7 as amended: `reset` restores the disease state to healthy,
zeroes the infection clock, unassigns the infectious period and clears the
treatment flags and the hospitalized flag, while the fixed demographics,
the country affiliation, and also the vaccination record (`vaccinated`,
`vaccine_type`, which the source does not touch) are unchanged. -/
theorem claim_C7_reset_amended (p : Patient) :
    (Patient.reset p).state = PState.healthy ∧
    (Patient.reset p).days_infected = 0 ∧
    (Patient.reset p).infectious_period = none ∧
    (Patient.reset p).has_treatment = false ∧
    (Patient.reset p).treatment_type = none ∧
    (Patient.reset p).hospitalized = false ∧
    (Patient.reset p).vaccinated = p.vaccinated ∧
    (Patient.reset p).vaccine_type = p.vaccine_type ∧
    (Patient.reset p).sex = p.sex ∧
    (Patient.reset p).age = p.age ∧
    (Patient.reset p).respiratory_disease = p.respiratory_disease ∧
    (Patient.reset p).mask = p.mask ∧
    (Patient.reset p).is_superspreader = p.is_superspreader ∧
    (Patient.reset p).country = p.country ∧
    (Patient.reset p).nationality = p.nationality := by
  unfold Patient.reset
  repeat constructor

/-- A vaccinated patient, the input refuting claim C7 as stated. -/
def vaccinatedPatient : Patient :=
  { basePatient with vaccinated := true, vaccine_type := some "A" }

/-- Claim C7 as stated is false: `reset` does not clear the vaccination
flag — on a vaccinated patient the flag is still set after `reset`. -/
theorem claim_C7_counterexample :
    vaccinatedPatient.vaccinated = true ∧
      (Patient.reset vaccinatedPatient).vaccinated = true ∧
      (Patient.reset vaccinatedPatient).vaccine_type = some "A" := by
  decide

/-! ## Claims C6 and C10: the allocator's visible behavior -/

/-- Claim C6: with a non-empty catalog, treatment is granted iff the budget
covers the unit cost, the daily cap is not reached, and the patient is
high-risk or the remaining budget exceeds 30% of the total; a grant pays
and counts the dose.  Independently, the patient is hospitalized iff
high-risk and below capacity, incrementing occupancy.  With an empty
catalog the call denies both flags. -/
theorem claim_C6_allocator (c : Country) (i choice : Nat) (hi : i < c.patients.length) :
    (c.treatments ≠ [] →
      ((((allocate_treatment_if_budget c i choice).patients.getD i default).has_treatment = true ↔
          (TREATMENT_COST ≤ c.budget_remaining ∧
            c.treatments_given_today < c.max_daily_treatments ∧
            (highRisk (c.patients.getD i default) ∨
              3 * c.budget_total < 10 * c.budget_remaining))) ∧
        (((allocate_treatment_if_budget c i choice).patients.getD i default).has_treatment = true →
          (allocate_treatment_if_budget c i choice).budget_remaining
              = c.budget_remaining - TREATMENT_COST ∧
            (allocate_treatment_if_budget c i choice).budget_spent_treatments
              = c.budget_spent_treatments + TREATMENT_COST ∧
            (allocate_treatment_if_budget c i choice).treatments_given_today
              = c.treatments_given_today + 1) ∧
        (((allocate_treatment_if_budget c i choice).patients.getD i default).has_treatment = false →
          (allocate_treatment_if_budget c i choice).budget_remaining = c.budget_remaining ∧
            (allocate_treatment_if_budget c i choice).budget_spent_treatments
              = c.budget_spent_treatments ∧
            (allocate_treatment_if_budget c i choice).treatments_given_today
              = c.treatments_given_today) ∧
        (((allocate_treatment_if_budget c i choice).patients.getD i default).hospitalized = true ↔
          (highRisk (c.patients.getD i default) ∧
            c.current_hospitalized < c.hospital_capacity)) ∧
        (((allocate_treatment_if_budget c i choice).patients.getD i default).hospitalized = true →
          (allocate_treatment_if_budget c i choice).current_hospitalized
            = c.current_hospitalized + 1) ∧
        (((allocate_treatment_if_budget c i choice).patients.getD i default).hospitalized = false →
          (allocate_treatment_if_budget c i choice).current_hospitalized
            = c.current_hospitalized))) ∧
    (c.treatments = [] →
      ((allocate_treatment_if_budget c i choice).patients.getD i default).has_treatment = false ∧
        ((allocate_treatment_if_budget c i choice).patients.getD i default).hospitalized = false) := by
  unfold allocate_treatment_if_budget finishHosp
  dsimp only
  split_ifs with h1 h2 h3 h4 <;>
    simp_all [getD_set_self _ _ _ _ hi, grantCond, highRisk] <;>
    first
      | tauto
      | omega
      | (intro hcb
         by_contra hno
         rw [Int.not_le] at hno
         rcases h2 hcb (by omega) with ⟨⟨hage, hresp⟩, -⟩
         rcases h4.1 with h65 | hrt
         · omega
         · simp_all)

/-- The concrete country for the allocator witnesses: one infected
high-risk patient, ample budget and capacity. -/
def allocGrantCountry : Country :=
  { baseCountry with patients := [{ basePatient with age := 70, state := PState.infected }] }

/-- Witness for claim C6 at a concrete input: the high-risk patient is
granted treatment, pays one unit cost, and is hospitalized. -/
theorem claim_C6_witness :
    ((allocate_treatment_if_budget allocGrantCountry 0 0).patients.getD 0 default).has_treatment
        = true ∧
      (allocate_treatment_if_budget allocGrantCountry 0 0).budget_remaining = 849 ∧
      ((allocate_treatment_if_budget allocGrantCountry 0 0).patients.getD 0 default).hospitalized
        = true ∧
      (allocate_treatment_if_budget allocGrantCountry 0 0).current_hospitalized = 1 := by
  have h := claim_C6_allocator allocGrantCountry 0 0 (by decide)
  have hne : allocGrantCountry.treatments ≠ [] := by decide
  obtain ⟨hful, -⟩ := h
  obtain ⟨hiff, hpay, -, hhiff, hhinc, -⟩ := hful hne
  have ht : ((allocate_treatment_if_budget allocGrantCountry 0 0).patients.getD 0
      default).has_treatment = true := hiff.mpr (by decide)
  have hh : ((allocate_treatment_if_budget allocGrantCountry 0 0).patients.getD 0
      default).hospitalized = true := hhiff.mpr (by decide)
  refine ⟨ht, ?_, hh, ?_⟩
  · exact (hpay ht).1.trans (by decide)
  · exact (hhinc hh).trans (by decide)

/-- Claim C10: the allocator never decrements `current_hospitalized`; on
return the hospitalized flag holds iff the catalog is non-empty, the
patient is high-risk, and the pre-call occupancy is below capacity —
regardless of the flag's value before the call; hence on an
already-hospitalized patient failing that condition the flag is cleared
while the held slot stays counted. -/
theorem claim_C10_allocator_hospital_leak (c : Country) (i choice : Nat)
    (hi : i < c.patients.length) :
    c.current_hospitalized ≤ (allocate_treatment_if_budget c i choice).current_hospitalized ∧
      (((allocate_treatment_if_budget c i choice).patients.getD i default).hospitalized = true ↔
        (c.treatments ≠ [] ∧ highRisk (c.patients.getD i default) ∧
          c.current_hospitalized < c.hospital_capacity)) ∧
      (((c.patients.getD i default).hospitalized = true ∧
          ¬(c.treatments ≠ [] ∧ highRisk (c.patients.getD i default) ∧
            c.current_hospitalized < c.hospital_capacity)) →
        (((allocate_treatment_if_budget c i choice).patients.getD i default).hospitalized = false ∧
          (allocate_treatment_if_budget c i choice).current_hospitalized
            = c.current_hospitalized)) := by
  unfold allocate_treatment_if_budget finishHosp
  dsimp only
  split_ifs with h1 h2 h3 h4 <;>
    simp_all [getD_set_self _ _ _ _ hi, grantCond, highRisk]

/-- The concrete country for the claim C10 witness: one already
hospitalized low-risk patient holding the only counted slot. -/
def hospLeakCountry : Country :=
  { baseCountry with
    patients := [{ basePatient with hospitalized := true, state := PState.infected }]
    current_hospitalized := 1 }

/-- Witness for claim C10 at a concrete input: the already-hospitalized
low-risk patient loses the flag while the slot stays counted. -/
theorem claim_C10_witness :
    ((allocate_treatment_if_budget hospLeakCountry 0 0).patients.getD 0 default).hospitalized
        = false ∧
      (allocate_treatment_if_budget hospLeakCountry 0 0).current_hospitalized = 1 := by
  have h := claim_C10_allocator_hospital_leak hospLeakCountry 0 0 (by decide)
  obtain ⟨-, -, hleak⟩ := h
  have hc := hleak ⟨by decide, by decide⟩
  exact ⟨hc.1, hc.2.trans (by decide)⟩

/-! ## Migration lemmas -/

/-- Total patient count over all rosters of the migration world. -/
def totalRoster (w : MWorld) : Nat :=
  (w.countries.map (fun mc => mc.roster.length)).sum

/-- The success branch of `try_travel`, written out as a function: erase the
patient id from the origin roster and count the departure, append it to the
destination roster and count the arrival, update the back-reference. -/
def travelResult (w : MWorld) (pid d : Nat) : MWorld :=
  let p := w.patients.getD pid default
  let origin := p.country
  let oc := w.countries.getD origin default
  let oc1 := { oc with
    roster := oc.roster.erase pid
    travellers_out_today := oc.travellers_out_today + 1 }
  let w1 := { w with countries := w.countries.set origin oc1 }
  let dc := w1.countries.getD d default
  let dc1 := { dc with
    roster := dc.roster ++ [pid]
    travellers_in_today := dc.travellers_in_today + 1 }
  let w2 := { w1 with countries := w1.countries.set d dc1 }
  { w2 with patients := w2.patients.set pid { p with country := d } }

/-- A dead patient never travels, and the world is untouched. -/
theorem try_travel_dead (w : MWorld) (pid : Nat) (roll prob : ℚ) (dest : Option Nat)
    (h : (w.patients.getD pid default).state = PState.dead) :
    try_travel w pid roll prob dest = (false, w) := by
  unfold try_travel
  dsimp only
  rw [if_pos h]

/-- A failed probability draw means no travel and an untouched world. -/
theorem try_travel_roll (w : MWorld) (pid : Nat) (roll prob : ℚ) (dest : Option Nat)
    (h : prob < roll) :
    try_travel w pid roll prob dest = (false, w) := by
  unfold try_travel
  dsimp only
  by_cases h1 : (w.patients.getD pid default).state = PState.dead
  · rw [if_pos h1]
  · rw [if_neg h1, if_pos h]

/-- No destination means no travel and an untouched world. -/
theorem try_travel_none (w : MWorld) (pid : Nat) (roll prob : ℚ) :
    try_travel w pid roll prob none = (false, w) := by
  unfold try_travel
  dsimp only
  split_ifs <;> rfl

/-- A destination equal to the current country means no travel and an
untouched world. -/
theorem try_travel_self (w : MWorld) (pid : Nat) (roll prob : ℚ) :
    try_travel w pid roll prob (some (w.patients.getD pid default).country) = (false, w) := by
  unfold try_travel
  dsimp only
  split_ifs <;> first | rfl | simp_all

/-- Whenever `try_travel` reports failure the world is untouched. -/
theorem try_travel_false (w : MWorld) (pid : Nat) (roll prob : ℚ) (dest : Option Nat)
    (h : (try_travel w pid roll prob dest).1 = false) :
    (try_travel w pid roll prob dest).2 = w := by
  unfold try_travel at *
  dsimp only at *
  cases dest with
  | none => split_ifs <;> rfl
  | some d =>
    dsimp only at h ⊢
    by_cases h1 : (w.patients.getD pid default).state = PState.dead
    · rw [if_pos h1]
    · rw [if_neg h1] at h ⊢
      by_cases h2 : prob < roll
      · rw [if_pos h2]
      · rw [if_neg h2] at h ⊢
        by_cases h3 : d = (w.patients.getD pid default).country
        · rw [if_pos h3]
        · rw [if_neg h3] at h ⊢
          by_cases h4 :
              pid ∈ (w.countries.getD (w.patients.getD pid default).country default).roster
          · rw [if_pos h4] at h; exact absurd h (by simp)
          · rw [if_neg h4]

/-- A successful `try_travel` went through the guards and produced exactly
the two-phase update `travelResult`. -/
theorem try_travel_success_eq (w : MWorld) (pid : Nat) (roll prob : ℚ) (d : Nat)
    (hs : (try_travel w pid roll prob (some d)).1 = true) :
    (w.patients.getD pid default).state ≠ PState.dead ∧
      ¬ prob < roll ∧
      d ≠ (w.patients.getD pid default).country ∧
      pid ∈ (w.countries.getD (w.patients.getD pid default).country default).roster ∧
      (try_travel w pid roll prob (some d)).2 = travelResult w pid d := by
  unfold try_travel at hs ⊢
  unfold travelResult
  dsimp only at hs ⊢
  by_cases h1 : (w.patients.getD pid default).state = PState.dead
  · rw [if_pos h1] at hs; exact absurd hs (by simp)
  · rw [if_neg h1] at hs ⊢
    by_cases h2 : prob < roll
    · rw [if_pos h2] at hs; exact absurd hs (by simp)
    · rw [if_neg h2] at hs ⊢
      by_cases h3 : d = (w.patients.getD pid default).country
      · rw [if_pos h3] at hs; exact absurd hs (by simp)
      · rw [if_neg h3] at hs ⊢
        by_cases h4 :
            pid ∈ (w.countries.getD (w.patients.getD pid default).country default).roster
        · rw [if_pos h4] at hs ⊢
          exact ⟨h1, h2, h3, h4, rfl⟩
        · rw [if_neg h4] at hs; exact absurd hs (by simp)

/-- Roster bookkeeping of the success branch: origin loses one, the
destination gains one, the total is conserved, and the back-reference now
points at the destination. -/
theorem travelResult_facts (w : MWorld) (pid d : Nat)
    (hp : pid < w.patients.length)
    (ho : (w.patients.getD pid default).country < w.countries.length)
    (hdlt : d < w.countries.length)
    (hne : d ≠ (w.patients.getD pid default).country)
    (hmem : pid ∈ (w.countries.getD (w.patients.getD pid default).country default).roster) :
    (((travelResult w pid d).countries.getD
          (w.patients.getD pid default).country default).roster.length + 1
        = (w.countries.getD (w.patients.getD pid default).country default).roster.length) ∧
      ((travelResult w pid d).countries.getD d default).roster.length
        = (w.countries.getD d default).roster.length + 1 ∧
      totalRoster (travelResult w pid d) = totalRoster w ∧
      ((travelResult w pid d).patients.getD pid default).country = d := by
  have hlenpos := List.length_pos_of_mem hmem
  have hlene := List.length_erase_of_mem hmem
  unfold travelResult totalRoster
  dsimp only
  refine ⟨?_, ?_, ?_, ?_⟩
  · rw [getD_set_ne _ _ _ _ _ (Ne.symm hne), getD_set_self _ _ _ _ ho]
    dsimp only
    omega
  · rw [getD_set_self _ _ _ _ (by rw [List.length_set]; exact hdlt),
      getD_set_ne _ _ _ _ _ hne]
    simp
  · have e1 := map_sum_set (fun mc => mc.roster.length) w.countries
      (w.patients.getD pid default).country
      { roster := (w.countries.getD (w.patients.getD pid default).country default).roster.erase pid
        travellers_in_today :=
          (w.countries.getD (w.patients.getD pid default).country default).travellers_in_today
        travellers_out_today :=
          (w.countries.getD (w.patients.getD pid default).country default).travellers_out_today
            + 1 } default ho
    have e2 := map_sum_set (fun mc => mc.roster.length)
      (w.countries.set (w.patients.getD pid default).country
        { roster :=
            (w.countries.getD (w.patients.getD pid default).country default).roster.erase pid
          travellers_in_today :=
            (w.countries.getD (w.patients.getD pid default).country default).travellers_in_today
          travellers_out_today :=
            (w.countries.getD (w.patients.getD pid default).country default).travellers_out_today
              + 1 }) d
      { roster :=
          ((w.countries.set (w.patients.getD pid default).country
              { roster :=
                  (w.countries.getD
                    (w.patients.getD pid default).country default).roster.erase pid
                travellers_in_today :=
                  (w.countries.getD
                    (w.patients.getD pid default).country default).travellers_in_today
                travellers_out_today :=
                  (w.countries.getD
                    (w.patients.getD pid default).country default).travellers_out_today
                    + 1 }).getD d default).roster ++ [pid]
        travellers_in_today :=
          ((w.countries.set (w.patients.getD pid default).country
              { roster :=
                  (w.countries.getD
                    (w.patients.getD pid default).country default).roster.erase pid
                travellers_in_today :=
                  (w.countries.getD
                    (w.patients.getD pid default).country default).travellers_in_today
                travellers_out_today :=
                  (w.countries.getD
                    (w.patients.getD pid default).country default).travellers_out_today
                    + 1 }).getD d default).travellers_in_today + 1
        travellers_out_today :=
          ((w.countries.set (w.patients.getD pid default).country
              { roster :=
                  (w.countries.getD
                    (w.patients.getD pid default).country default).roster.erase pid
                travellers_in_today :=
                  (w.countries.getD
                    (w.patients.getD pid default).country default).travellers_in_today
                travellers_out_today :=
                  (w.countries.getD
                    (w.patients.getD pid default).country default).travellers_out_today
                    + 1 }).getD d default).travellers_out_today }
      default (by rw [List.length_set]; exact hdlt)
    rw [getD_set_ne _ _ _ _ _ hne] at e2
    dsimp only at e1 e2
    rw [getD_set_ne _ _ _ _ _ hne]
    simp only [List.length_append, List.length_cons, List.length_nil] at e2
    omega
  · rw [getD_set_self _ _ _ _ hp]

/-! ## Claim C2: `try_travel` -/

/-- Claim C2: `try_travel` returns false and leaves the world untouched
when the patient is dead, the probability draw fails, or the destination is
missing or equal to the current country; whenever it reports failure the
world is untouched; and on success the origin roster shrinks by one, the
destination roster grows by one, the total patient count over all countries
is conserved, and the patient's country reference equals the destination. -/
theorem claim_C2_try_travel (w : MWorld) (pid : Nat) (roll prob : ℚ) (dest : Option Nat)
    (hp : pid < w.patients.length)
    (ho : (w.patients.getD pid default).country < w.countries.length)
    (hdest : ∀ d, dest = some d → d < w.countries.length) :
    ((w.patients.getD pid default).state = PState.dead →
        try_travel w pid roll prob dest = (false, w)) ∧
      (prob < roll → try_travel w pid roll prob dest = (false, w)) ∧
      (dest = none → try_travel w pid roll prob dest = (false, w)) ∧
      (dest = some (w.patients.getD pid default).country →
        try_travel w pid roll prob dest = (false, w)) ∧
      ((try_travel w pid roll prob dest).1 = false →
        (try_travel w pid roll prob dest).2 = w) ∧
      (∀ d, dest = some d → (try_travel w pid roll prob dest).1 = true →
        ((((try_travel w pid roll prob dest).2.countries.getD
              (w.patients.getD pid default).country default).roster.length + 1
            = (w.countries.getD (w.patients.getD pid default).country default).roster.length) ∧
          ((try_travel w pid roll prob dest).2.countries.getD d default).roster.length
            = (w.countries.getD d default).roster.length + 1 ∧
          totalRoster (try_travel w pid roll prob dest).2 = totalRoster w ∧
          ((try_travel w pid roll prob dest).2.patients.getD pid default).country = d)) := by
  refine ⟨try_travel_dead w pid roll prob dest, try_travel_roll w pid roll prob dest,
    ?_, ?_, try_travel_false w pid roll prob dest, ?_⟩
  · intro h; subst h; exact try_travel_none w pid roll prob
  · intro h; subst h; exact try_travel_self w pid roll prob
  · intro d hd hs
    subst hd
    obtain ⟨-, -, hne, hmem, heq⟩ := try_travel_success_eq w pid roll prob d hs
    rw [heq]
    exact travelResult_facts w pid d hp ho (hdest d rfl) hne hmem

/-- The concrete two-country world for the migration witnesses: one living
patient (id 0) on the roster of country 0, and an empty country 1. -/
def mwW : MWorld :=
  { patients := [basePatient]
    countries := [{ roster := [0], travellers_in_today := 0, travellers_out_today := 0 },
                  { roster := [], travellers_in_today := 0, travellers_out_today := 0 }] }

/-- Witness for claim C2 at a concrete input: the travel from country 0 to
country 1 succeeds, moving the single patient. -/
theorem claim_C2_witness :
    (((try_travel mwW 0 0 1 (some 1)).2.countries.getD 0 default).roster.length + 1
        = (mwW.countries.getD 0 default).roster.length) ∧
      ((try_travel mwW 0 0 1 (some 1)).2.countries.getD 1 default).roster.length
        = (mwW.countries.getD 1 default).roster.length + 1 ∧
      totalRoster (try_travel mwW 0 0 1 (some 1)).2 = totalRoster mwW ∧
      ((try_travel mwW 0 0 1 (some 1)).2.patients.getD 0 default).country = 1 := by
  have h := claim_C2_try_travel mwW 0 0 1 (some 1) (by decide) (by decide)
    (by intro d hd; cases hd; decide)
  have h6 := h.2.2.2.2.2 1 rfl (by decide)
  simpa [mwW, basePatient] using h6

/-! ## Claim C1: per-day travel counters (corrected) -/

/-- Claim C1 as amended: on a successful travel processed by the batch
worker, each endpoint's per-day counter increases by exactly TWO, not one —
`try_travel` increments both counters once, and `process_patient_batch`
increments both once more after it returns true. -/
theorem claim_C1_travel_counters_amended (w : MWorld) (pid : Nat) (roll prob : ℚ) (d : Nat)
    (hp : pid < w.patients.length)
    (ho : (w.patients.getD pid default).country < w.countries.length)
    (hdlt : d < w.countries.length)
    (hs : (try_travel w pid roll prob (some d)).1 = true) :
    ((worker_travel_step w pid roll prob (some d)).countries.getD
          (w.patients.getD pid default).country default).travellers_out_today
        = (w.countries.getD
            (w.patients.getD pid default).country default).travellers_out_today + 2 ∧
      ((worker_travel_step w pid roll prob (some d)).countries.getD d default).travellers_in_today
        = (w.countries.getD d default).travellers_in_today + 2 := by
  obtain ⟨hdead, -, hne, hmem, heq⟩ := try_travel_success_eq w pid roll prob d hs
  have hcountry : ((travelResult w pid d).patients.getD pid default).country = d :=
    (travelResult_facts w pid d hp ho hdlt hne hmem).2.2.2
  unfold worker_travel_step
  dsimp only
  rw [if_neg hdead, if_pos hs, heq, hcountry]
  unfold travelResult
  dsimp only
  constructor
  · rw [getD_set_ne _ _ _ _ _ (Ne.symm hne),
      getD_set_self _ _ _ _ (by simp only [List.length_set]; exact ho)]
    dsimp only
    rw [getD_set_ne _ _ _ _ _ (Ne.symm hne), getD_set_self _ _ _ _ ho]
    dsimp only
    omega
  · rw [getD_set_self _ _ _ _ (by simp only [List.length_set]; exact hdlt)]
    dsimp only
    rw [getD_set_ne _ _ _ _ _ hne,
      getD_set_self _ _ _ _ (by simp only [List.length_set]; exact hdlt),
      getD_set_ne _ _ _ _ _ hne]
    dsimp only
    omega

/-- Claim C1 as stated is false at a concrete input: a successful travel
leaves the origin's outbound counter at 2, not at its old value plus 1. -/
theorem claim_C1_counterexample :
    (try_travel mwW 0 0 1 (some 1)).1 = true ∧
      (mwW.countries.getD 0 default).travellers_out_today = 0 ∧
      ((worker_travel_step mwW 0 0 1 (some 1)).countries.getD 0
          default).travellers_out_today = 2 ∧
      ((worker_travel_step mwW 0 0 1 (some 1)).countries.getD 1
          default).travellers_in_today = 2 ∧
      ¬ (((worker_travel_step mwW 0 0 1 (some 1)).countries.getD 0
            default).travellers_out_today
          = (mwW.countries.getD 0 default).travellers_out_today + 1) := by
  decide

/-- Witness for the amended claim C1 at the same concrete input. -/
theorem claim_C1_witness :
    ((worker_travel_step mwW 0 0 1 (some 1)).countries.getD 0 default).travellers_out_today
        = (mwW.countries.getD 0 default).travellers_out_today + 2 ∧
      ((worker_travel_step mwW 0 0 1 (some 1)).countries.getD 1 default).travellers_in_today
        = (mwW.countries.getD 1 default).travellers_in_today + 2 := by
  have h := claim_C1_travel_counters_amended mwW 0 0 1 1 (by decide) (by decide) (by decide)
    (by decide)
  simpa [mwW, basePatient] using h

/-! ## Vaccination campaign lemmas (claim C5) -/

instance (c : Country) : IsTrans Nat (candBefore c) := by
  constructor
  intro a b e hab hbe
  unfold candBefore keyLt at *
  simp only [Prod.ext_iff] at *
  omega

instance (c : Country) : IsTotal Nat (candBefore c) := by
  constructor
  intro a b
  unfold candBefore keyLt
  simp only [Prod.ext_iff]
  omega

/-- What the campaign's inner loop does on a duplicate-free list of valid,
unvaccinated roster indices whose doses the budget fully covers: one dose
per index, one unit cost per dose, everything else untouched. -/
theorem vacLoop_spec (vcost : String → Int) (main : String) (hu : 0 < vcost main)
    (l : List Nat) (c : Country) (hnd : l.Nodup)
    (hmem : ∀ j ∈ l, j < c.patients.length ∧ (c.patients.getD j default).vaccinated = false)
    (hbud : (l.length : Int) * vcost main ≤ c.budget_remaining) :
    (vacLoop vcost main c l).vaccinated_today = c.vaccinated_today + l.length ∧
      (vacLoop vcost main c l).budget_remaining
        = c.budget_remaining - (l.length : Int) * vcost main ∧
      (vacLoop vcost main c l).patients.length = c.patients.length ∧
      (∀ j ∈ l, ((vacLoop vcost main c l).patients.getD j default).vaccinated = true) ∧
      (∀ j, j ∉ l →
        (vacLoop vcost main c l).patients.getD j default = c.patients.getD j default) := by
  induction l generalizing c with
  | nil => simp only [vacLoop]; simp
  | cons j rest ih =>
    have hjl := hmem j (List.mem_cons_self j rest)
    have hrnn : (0 : Int) ≤ (rest.length : Int) * vcost main :=
      mul_nonneg (Int.natCast_nonneg _) (le_of_lt hu)
    have hlen : (((j :: rest).length : Nat) : Int) = (rest.length : Int) + 1 := by
      push_cast [List.length_cons]; ring
    have hexp : (((j :: rest).length : Nat) : Int) * vcost main
        = (rest.length : Int) * vcost main + vcost main := by
      rw [hlen]; ring
    have hno : ¬ c.budget_remaining < vcost main := by
      rw [hexp] at hbud; omega
    have hjne : j ∉ rest := (List.nodup_cons.mp hnd).1
    simp only [vacLoop]
    rw [if_neg hno, if_neg (by rw [hjl.2]; simp)]
    have hih := ih
      { c with
        patients := c.patients.set j
          { c.patients.getD j default with vaccinated := true, vaccine_type := some main }
        budget_remaining := c.budget_remaining - vcost main
        budget_spent_vaccines := c.budget_spent_vaccines + vcost main
        vaccinated_today := c.vaccinated_today + 1
        vaccine_units_given := bumpUnits c.vaccine_units_given main }
      (List.nodup_cons.mp hnd).2
      (by
        intro m hm
        have hmm := hmem m (List.mem_cons_of_mem j hm)
        have hne : m ≠ j := fun hc => hjne (hc ▸ hm)
        dsimp only
        rw [List.length_set, getD_set_ne _ _ _ _ _ hne]
        exact hmm)
      (by dsimp only; rw [hexp] at hbud; omega)
    obtain ⟨h1, h2, h3, h4, h5⟩ := hih
    refine ⟨?_, ?_, ?_, ?_, ?_⟩
    · rw [h1]; dsimp only; push_cast [List.length_cons]; ring
    · rw [h2]; dsimp only; rw [hexp]; ring
    · rw [h3]; dsimp only; rw [List.length_set]
    · intro m hm
      rcases List.mem_cons.mp hm with hmj | hmr
      · subst hmj
        rw [h5 m hjne]
        dsimp only
        rw [getD_set_self _ _ _ _ hjl.1]
      · exact h4 m hmr
    · intro m hm
      have hmr : m ∉ rest := fun hc => hm (List.mem_cons_of_mem j hc)
      have hmj : m ≠ j := fun hc => hm (hc ▸ List.mem_cons_self j rest)
      rw [h5 m hmr]
      dsimp only
      rw [getD_set_ne _ _ _ _ _ hmj]

/-- Claim C5: on a campaign day with a non-empty catalog and a positive
primary unit cost, the campaign ranks the candidates by `candBefore`
(descending key `(high_risk, age)`, ties in roster order — the sorted list
is a permutation of the candidate list), gives exactly
`min(floor(budget / unit_cost), daily_vaccination_capacity)` doses when at
least that many candidates exist, decrements the budget by one unit cost
per dose, and vaccinates exactly the prefix of the ranked candidates. -/
theorem claim_C5_vaccination_campaign (vcost : String → Int) (c : Country) (day : Nat)
    (hday : VACCINATION_CAMPAIGN_DAY ≤ day)
    (hvac : ¬ c.vaccines = [])
    (hcost : 0 < vcost c.vaccine)
    (hbud : 0 ≤ c.budget_remaining)
    (hcap : 0 ≤ c.daily_vaccination_capacity)
    (hcand : (min (Int.fdiv c.budget_remaining (vcost c.vaccine))
        c.daily_vaccination_capacity).toNat ≤ (risk_candidates c).length) :
    (run_vaccination_campaign vcost c day).vaccinated_today
        = c.vaccinated_today
            + min (Int.fdiv c.budget_remaining (vcost c.vaccine))
                c.daily_vaccination_capacity ∧
      (run_vaccination_campaign vcost c day).budget_remaining
        = c.budget_remaining
            - min (Int.fdiv c.budget_remaining (vcost c.vaccine))
                c.daily_vaccination_capacity * vcost c.vaccine ∧
      List.Sorted (candBefore c) (List.insertionSort (candBefore c) (risk_candidates c)) ∧
      (List.insertionSort (candBefore c) (risk_candidates c)).Perm (risk_candidates c) ∧
      (∀ j ∈ (List.insertionSort (candBefore c) (risk_candidates c)).take
          (min (Int.fdiv c.budget_remaining (vcost c.vaccine))
            c.daily_vaccination_capacity).toNat,
        ((run_vaccination_campaign vcost c day).patients.getD j default).vaccinated = true) := by
  have hfd0 : 0 ≤ Int.fdiv c.budget_remaining (vcost c.vaccine) :=
    Int.fdiv_nonneg hbud (le_of_lt hcost)
  have hm0 : 0 ≤ min (Int.fdiv c.budget_remaining (vcost c.vaccine))
      c.daily_vaccination_capacity := le_min hfd0 hcap
  have hmfd : min (Int.fdiv c.budget_remaining (vcost c.vaccine))
      c.daily_vaccination_capacity ≤ Int.fdiv c.budget_remaining (vcost c.vaccine) :=
    min_le_left _ _
  have hmcp : min (Int.fdiv c.budget_remaining (vcost c.vaccine))
      c.daily_vaccination_capacity ≤ c.daily_vaccination_capacity := min_le_right _ _
  have hsorted : List.Sorted (candBefore c)
      (List.insertionSort (candBefore c) (risk_candidates c)) :=
    List.sorted_insertionSort _ _
  have hperm := List.perm_insertionSort (candBefore c) (risk_candidates c)
  have hcnd : (risk_candidates c).Nodup := (List.nodup_range _).filter _
  unfold run_vaccination_campaign
  dsimp only
  rw [if_neg (not_lt.mpr hday), if_neg hvac, if_neg (not_le.mpr hcost)]
  by_cases hfd : Int.fdiv c.budget_remaining (vcost c.vaccine) ≤ 0
  · rw [if_pos hfd]
    have hmz : min (Int.fdiv c.budget_remaining (vcost c.vaccine))
        c.daily_vaccination_capacity = 0 := by omega
    rw [hmz]
    refine ⟨by ring, by ring, hsorted, hperm, ?_⟩
    intro j hj
    simp at hj
  · rw [if_neg hfd]
    by_cases hcp : c.daily_vaccination_capacity ≤ 0
    · rw [if_pos hcp]
      have hmz : min (Int.fdiv c.budget_remaining (vcost c.vaccine))
          c.daily_vaccination_capacity = 0 := by omega
      rw [hmz]
      refine ⟨by ring, by ring, hsorted, hperm, ?_⟩
      intro j hj
      simp at hj
    · rw [if_neg hcp]
      have hmpos : 0 < min (Int.fdiv c.budget_remaining (vcost c.vaccine))
          c.daily_vaccination_capacity := lt_min (by omega) (by omega)
      have hclne : ¬ risk_candidates c = [] := by
        intro hc
        rw [hc] at hcand
        simp at hcand
        omega
      rw [if_neg hclne]
      have hsortnd : (List.insertionSort (candBefore c) (risk_candidates c)).Nodup :=
        hperm.nodup_iff.mpr hcnd
      have hnd : ((List.insertionSort (candBefore c) (risk_candidates c)).take
          (min (Int.fdiv c.budget_remaining (vcost c.vaccine))
            c.daily_vaccination_capacity).toNat).Nodup :=
        List.Nodup.sublist (List.take_sublist _ _) hsortnd
      have hmemtv : ∀ j ∈ (List.insertionSort (candBefore c) (risk_candidates c)).take
          (min (Int.fdiv c.budget_remaining (vcost c.vaccine))
            c.daily_vaccination_capacity).toNat,
          j < c.patients.length ∧ (c.patients.getD j default).vaccinated = false := by
        intro j hj
        have hjs : j ∈ List.insertionSort (candBefore c) (risk_candidates c) :=
          (List.take_sublist _ _).subset hj
        have hjc : j ∈ risk_candidates c := hperm.subset hjs
        unfold risk_candidates at hjc
        rw [List.mem_filter] at hjc
        obtain ⟨hjr, hjp⟩ := hjc
        have hjp2 := of_decide_eq_true hjp
        exact ⟨List.mem_range.mp hjr, hjp2.2⟩
      have htvlen : ((List.insertionSort (candBefore c) (risk_candidates c)).take
          (min (Int.fdiv c.budget_remaining (vcost c.vaccine))
            c.daily_vaccination_capacity).toNat).length
          = (min (Int.fdiv c.budget_remaining (vcost c.vaccine))
              c.daily_vaccination_capacity).toNat := by
        rw [List.length_take, List.length_insertionSort]
        exact min_eq_left hcand
      have hbudtv : (((List.insertionSort (candBefore c) (risk_candidates c)).take
            (min (Int.fdiv c.budget_remaining (vcost c.vaccine))
              c.daily_vaccination_capacity).toNat).length : Int) * vcost c.vaccine
          ≤ c.budget_remaining := by
        rw [htvlen, Int.toNat_of_nonneg hm0]
        have h2 : min (Int.fdiv c.budget_remaining (vcost c.vaccine))
              c.daily_vaccination_capacity * vcost c.vaccine
            ≤ Int.fdiv c.budget_remaining (vcost c.vaccine) * vcost c.vaccine :=
          mul_le_mul_of_nonneg_right hmfd (le_of_lt hcost)
        have h3 : Int.fdiv c.budget_remaining (vcost c.vaccine) * vcost c.vaccine
            ≤ c.budget_remaining := by
          rw [Int.fdiv_eq_ediv _ (le_of_lt hcost)]
          exact Int.ediv_mul_le _ (ne_of_gt hcost)
        linarith
      obtain ⟨g1, g2, g3, g4, g5⟩ :=
        vacLoop_spec vcost c.vaccine hcost _ c hnd hmemtv hbudtv
      refine ⟨?_, ?_, hsorted, hperm, g4⟩
      · rw [g1, htvlen, Int.toNat_of_nonneg hm0]
      · rw [g2, htvlen, Int.toNat_of_nonneg hm0]

/-- The concrete country for the claim C5 witness: budget 100, primary
vaccine A at unit cost 3, daily capacity 10, twelve alive unvaccinated
patients. -/
def vacCampaignCountry : Country :=
  { baseCountry with
    budget_remaining := 100
    daily_vaccination_capacity := 10
    patients := List.replicate 12 basePatient }

/-- Witness for claim C5 at the spec's own numbers: budget 100, unit cost
3, capacity 10 and at least 10 candidates give exactly
`min(floor(100 / 3), 10) = 10` doses, and the budget drops by 30. -/
theorem claim_C5_witness :
    (run_vaccination_campaign vaccineCostF vacCampaignCountry 10).vaccinated_today = 10 ∧
      (run_vaccination_campaign vaccineCostF vacCampaignCountry 10).budget_remaining = 70 := by
  have h := claim_C5_vaccination_campaign vaccineCostF vacCampaignCountry 10
    (by decide) (by decide) (by decide) (by decide) (by decide) (by decide)
  exact ⟨h.1.trans (by decide), h.2.1.trans (by decide)⟩

/-! ## Disease-engine lemmas (claims C3 and C4) -/

/-- The spec's allowed daily transitions: stay put, healthy→infected, or
infected→{recovered, dead}.  Recovered and dead are absorbing. -/
def stepRel (s t : PState) : Prop :=
  s = t ∨ (s = PState.healthy ∧ t = PState.infected) ∨
    (s = PState.infected ∧ (t = PState.recovered ∨ t = PState.dead))

/-- Assigning the first infectious period never changes the disease state. -/
theorem assignPeriod_state (p : Patient) (d : Nat) : (assignPeriod p d).state = p.state := by
  unfold assignPeriod
  cases hp : p.infectious_period <;> rfl

/-- One contact iteration keeps the roster length. -/
theorem infect_contact_length (c : Country) (day : Nat) (pmask : Bool) (j : Nat)
    (roll : ℚ) (per choice : Nat) :
    (infect_contact c day pmask j roll per choice).patients.length = c.patients.length := by
  unfold infect_contact
  dsimp only
  split_ifs
  · rw [(allocate_frame _ _ _).1]
    dsimp only
    rw [List.length_set]
  · rfl
  · rfl

/-- One contact iteration moves each state either not at all or from
healthy to infected (the transactional re-check). -/
theorem infect_contact_state (c : Country) (day : Nat) (pmask : Bool) (j : Nat)
    (roll : ℚ) (per choice : Nat) (m : Nat) :
    ((infect_contact c day pmask j roll per choice).patients.getD m default).state
        = (c.patients.getD m default).state ∨
      ((c.patients.getD m default).state = PState.healthy ∧
        ((infect_contact c day pmask j roll per choice).patients.getD m default).state
          = PState.infected) := by
  unfold infect_contact
  dsimp only
  split_ifs with h1 h2
  · rw [allocate_state_eq, getD_set]
    split_ifs with hc
    · right
      rcases hc with ⟨hm, _⟩
      subst hm
      exact ⟨h2, rfl⟩
    · left; rfl
  · left; rfl
  · left; rfl

/-- One contact iteration leaves any non-healthy roster entry untouched. -/
theorem infect_contact_frame (c : Country) (day : Nat) (pmask : Bool) (j : Nat)
    (roll : ℚ) (per choice : Nat) (m : Nat)
    (hm : (c.patients.getD m default).state ≠ PState.healthy) :
    (infect_contact c day pmask j roll per choice).patients.getD m default
      = c.patients.getD m default := by
  unfold infect_contact
  dsimp only
  split_ifs with h1 h2
  · have hmj : m ≠ j := fun hc => hm (hc ▸ h2)
    rw [allocate_other_eq _ _ _ _ hmj, getD_set_ne _ _ _ _ _ hmj]
  · rfl
  · rfl

/-- One contact iteration preserves the country invariants. -/
theorem infect_contact_inv (c : Country) (day : Nat) (pmask : Bool) (j : Nat)
    (roll : ℚ) (per choice : Nat) (h : CountryInv c) :
    CountryInv (infect_contact c day pmask j roll per choice) := by
  unfold infect_contact
  dsimp only
  split_ifs with h1 h2
  · exact allocate_inv _ _ _ h
  · exact h
  · exact h

/-- The contact loop keeps the roster length. -/
theorem infect_contacts_length (day : Nat) (pmask : Bool) (o : InfOracle)
    (l : List (Nat × Nat)) (c : Country) :
    (infect_contacts day pmask o c l).patients.length = c.patients.length := by
  induction l generalizing c with
  | nil => rfl
  | cons pj rest ih =>
    rcases pj with ⟨pos, j⟩
    simp only [infect_contacts]
    rw [ih, infect_contact_length]

/-- The contact loop moves each state either not at all or from healthy to
infected. -/
theorem infect_contacts_state (day : Nat) (pmask : Bool) (o : InfOracle)
    (l : List (Nat × Nat)) (c : Country) (m : Nat) :
    ((infect_contacts day pmask o c l).patients.getD m default).state
        = (c.patients.getD m default).state ∨
      ((c.patients.getD m default).state = PState.healthy ∧
        ((infect_contacts day pmask o c l).patients.getD m default).state
          = PState.infected) := by
  induction l generalizing c with
  | nil => left; rfl
  | cons pj rest ih =>
    rcases pj with ⟨pos, j⟩
    simp only [infect_contacts]
    have h1 := infect_contact_state c day pmask j (o.infectRoll pos) (o.contactPeriod pos)
      (o.treatChoice pos) m
    have h2 := ih (infect_contact c day pmask j (o.infectRoll pos) (o.contactPeriod pos)
      (o.treatChoice pos))
    rcases h1 with h1 | ⟨h1a, h1b⟩ <;> rcases h2 with h2 | ⟨h2a, h2b⟩ <;> simp_all

/-- The contact loop leaves any non-healthy roster entry untouched. -/
theorem infect_contacts_frame (day : Nat) (pmask : Bool) (o : InfOracle)
    (l : List (Nat × Nat)) (c : Country) (m : Nat)
    (hm : (c.patients.getD m default).state ≠ PState.healthy) :
    (infect_contacts day pmask o c l).patients.getD m default
      = c.patients.getD m default := by
  induction l generalizing c with
  | nil => rfl
  | cons pj rest ih =>
    rcases pj with ⟨pos, j⟩
    simp only [infect_contacts]
    have hstep := infect_contact_frame c day pmask j (o.infectRoll pos) (o.contactPeriod pos)
      (o.treatChoice pos) m hm
    rw [ih _ (by rw [hstep]; exact hm), hstep]

/-- The contact loop preserves the country invariants. -/
theorem infect_contacts_inv (day : Nat) (pmask : Bool) (o : InfOracle)
    (l : List (Nat × Nat)) (c : Country) (h : CountryInv c) :
    CountryInv (infect_contacts day pmask o c l) := by
  induction l generalizing c with
  | nil => exact h
  | cons pj rest ih =>
    rcases pj with ⟨pos, j⟩
    simp only [infect_contacts]
    exact ih _ (infect_contact_inv _ _ _ _ _ _ _ h)

/-- The episode outcome is always recovered or dead. -/
theorem finalOutcome_cases (p : Patient) (r r2 : ℚ) :
    finalOutcome p r r2 = PState.recovered ∨ finalOutcome p r r2 = PState.dead := by
  unfold finalOutcome
  dsimp only
  split_ifs <;> simp

/-- The state written by `releaseAndSet`, slot by slot. -/
theorem releaseAndSet_state (c : Country) (i : Nat) (p : Patient) (s : PState) (j : Nat) :
    ((releaseAndSet c i p s).patients.getD j default).state
      = if j = i ∧ i < c.patients.length then s
        else (c.patients.getD j default).state := by
  unfold releaseAndSet
  split_ifs with h1 <;> (dsimp only; rw [getD_set]; split_ifs with h2 <;> rfl)

/-- Function `releaseAndSet` preserves the country invariants (the guarded decrement
cannot overshoot the capacity bound). -/
theorem releaseAndSet_inv (c : Country) (i : Nat) (p : Patient) (s : PState)
    (h : CountryInv c) :
    CountryInv (releaseAndSet c i p s) := by
  obtain ⟨h1, h2, h3⟩ := h
  unfold releaseAndSet
  split_ifs with hg
  · exact ⟨by dsimp only; omega, h2, h3⟩
  · exact ⟨h1, h2, h3⟩

set_option maxHeartbeats 1600000 in
/-- The full daily disease step preserves the country invariants. -/
theorem infection_step_inv (c : Country) (i day : Nat) (o : InfOracle)
    (h : CountryInv c) :
    CountryInv (infection_step c i day o) := by
  unfold infection_step
  dsimp only
  split_ifs <;>
    first
      | exact h
      | exact releaseAndSet_inv _ _ _ _ (infect_contacts_inv _ _ _ _ _ h)
      | exact releaseAndSet_inv _ _ _ _ h
      | exact infect_contacts_inv _ _ _ _ _ h

/-- The campaign's inner loop preserves the country invariants. -/
theorem vacLoop_inv (vcost : String → Int) (main : String) (l : List Nat) (c : Country)
    (h : CountryInv c) :
    CountryInv (vacLoop vcost main c l) := by
  induction l generalizing c with
  | nil => exact h
  | cons j rest ih =>
    simp only [vacLoop]
    split_ifs with h1 h2 <;>
      first
        | exact h
        | exact ih c h
        | exact ih _ ⟨h.1, h.2.1, by dsimp only; omega⟩

/-- The daily vaccination campaign preserves the country invariants. -/
theorem run_vaccination_campaign_inv (vcost : String → Int) (c : Country) (day : Nat)
    (h : CountryInv c) :
    CountryInv (run_vaccination_campaign vcost c day) := by
  unfold run_vaccination_campaign
  dsimp only
  split_ifs <;> first | exact h | exact vacLoop_inv _ _ _ _ h

/-- The initial-vaccination loop preserves the country invariants. -/
theorem initVacLoop_inv (vcost : String → Int) (roll : Nat → ℚ) (choice : Nat → Nat)
    (l : List Nat) (c : Country) (h : CountryInv c) :
    CountryInv (initVacLoop vcost roll choice c l) := by
  induction l generalizing c with
  | nil => exact h
  | cons j rest ih =>
    simp only [initVacLoop]
    split_ifs with h1 h2 h3 <;>
      first
        | exact h
        | exact ih c h
        | exact ih _ ⟨h.1, h.2.1, by dsimp only; omega⟩

/-- The initial vaccination preserves the country invariants. -/
theorem initial_vaccination_inv (vcost : String → Int) (roll : Nat → ℚ)
    (choice : Nat → Nat) (c : Country) (h : CountryInv c) :
    CountryInv (initial_vaccination vcost roll choice c) := by
  unfold initial_vaccination
  split_ifs
  · exact h
  · exact initVacLoop_inv _ _ _ _ _ h

/-! ## Claim C4: the country invariants are preserved -/

/-- Claim C4: treatment allocation (including its hospitalization step),
the daily vaccination campaign, the initial vaccination, and the daily
disease step each preserve `current_hospitalized ≤ hospital_capacity`,
`treatments_given_today ≤ max_daily_treatments` and `budget_remaining ≥ 0`,
given these hold before the operation. -/
theorem claim_C4_invariants (c : Country) (i choice day : Nat) (o : InfOracle)
    (vcost : String → Int) (roll : Nat → ℚ) (pick : Nat → Nat)
    (h : CountryInv c) :
    CountryInv (allocate_treatment_if_budget c i choice) ∧
      CountryInv (run_vaccination_campaign vcost c day) ∧
      CountryInv (initial_vaccination vcost roll pick c) ∧
      CountryInv (infection_step c i day o) :=
  ⟨allocate_inv c i choice h, run_vaccination_campaign_inv vcost c day h,
    initial_vaccination_inv vcost roll pick c h, infection_step_inv c i day o h⟩

/-- The concrete oracle for the disease-step witnesses: whole-number
Bernoulli draws only. -/
def infOracleW : InfOracle :=
  { periodDraw := 5
    contactsCount := 3
    sampleIdx := [0]
    infectRoll := fun _ => 1
    contactPeriod := fun _ => 5
    treatChoice := fun _ => 0
    deathRoll := 1
    finalRoll := 1
    finalDeathRoll := 1 }

/-- A one-patient healthy country for the disease-step witnesses. -/
def healthyCountry : Country := { baseCountry with patients := [basePatient] }

/-- Witness for claim C4 at a concrete input. -/
theorem claim_C4_witness :
    CountryInv (allocate_treatment_if_budget healthyCountry 0 0) ∧
      CountryInv (run_vaccination_campaign vaccineCostF healthyCountry 1) ∧
      CountryInv (initial_vaccination vaccineCostF (fun _ => 1) (fun _ => 0) healthyCountry) ∧
      CountryInv (infection_step healthyCountry 0 1 infOracleW) :=
  claim_C4_invariants healthyCountry 0 0 1 infOracleW vaccineCostF (fun _ => 1) (fun _ => 0)
    (by refine ⟨?_, ?_, ?_⟩ <;> decide)

/-! ## Claim C3: the disease state machine -/

set_option maxHeartbeats 1600000 in
/-- Claim C3: the daily disease step is a no-op on a healthy, recovered or
dead patient, and every roster entry's state moves only along
healthy→infected→{recovered, dead}: each entry either keeps its state, is a
healthy contact that is re-checked at the moment of update and infected, or
is the infected focal patient resolving to recovered or dead.  In
particular recovered and dead entries never change. -/
theorem claim_C3_state_machine (c : Country) (i day : Nat) (o : InfOracle) :
    (((c.patients.getD i default).state = PState.healthy ∨
        (c.patients.getD i default).state = PState.recovered ∨
        (c.patients.getD i default).state = PState.dead) →
      infection_step c i day o = c) ∧
      ∀ j, stepRel ((c.patients.getD j default).state)
        (((infection_step c i day o).patients.getD j default).state) := by
  constructor
  · intro hs
    unfold infection_step
    dsimp only
    rw [if_pos hs]
  · intro j
    by_cases htop : (c.patients.getD i default).state = PState.healthy ∨
        (c.patients.getD i default).state = PState.recovered ∨
        (c.patients.getD i default).state = PState.dead
    · have hnoop : infection_step c i day o = c := by
        unfold infection_step
        dsimp only
        rw [if_pos htop]
      rw [hnoop]
      exact Or.inl rfl
    · have hstate : (c.patients.getD i default).state = PState.infected := by
        cases hx : (c.patients.getD i default).state
        · exact absurd (Or.inl hx) htop
        · rfl
        · exact absurd (Or.inr (Or.inl hx)) htop
        · exact absurd (Or.inr (Or.inr hx)) htop
      have f1 : ∀ m, ((c.patients.set i
            (assignPeriod (c.patients.getD i default) o.periodDraw)).getD m default).state
          = (c.patients.getD m default).state := by
        intro m
        rw [getD_set]
        split_ifs with hc
        · rcases hc with ⟨hm, _⟩
          subst hm
          rw [assignPeriod_state]
        · rfl
      have hRmid : ∀ (cm : Country),
          (∀ m, ((cm.patients.getD m default).state
              = ((c.patients.set i (assignPeriod (c.patients.getD i default)
                  o.periodDraw)).getD m default).state ∨
            (((c.patients.set i (assignPeriod (c.patients.getD i default)
                  o.periodDraw)).getD m default).state = PState.healthy ∧
              (cm.patients.getD m default).state = PState.infected))) →
          ∀ m, ((cm.patients.getD m default).state = (c.patients.getD m default).state ∨
            ((c.patients.getD m default).state = PState.healthy ∧
              (cm.patients.getD m default).state = PState.infected)) := by
        intro cm hR m
        rcases hR m with hr | ⟨ha, hb⟩
        · left; rw [hr, f1 m]
        · right
          refine ⟨?_, hb⟩
          rw [← f1 m]
          exact ha
      have hRstep : ∀ (cm : Country),
          (∀ m, ((cm.patients.getD m default).state = (c.patients.getD m default).state ∨
            ((c.patients.getD m default).state = PState.healthy ∧
              (cm.patients.getD m default).state = PState.infected))) →
          ∀ m, stepRel ((c.patients.getD m default).state)
            ((cm.patients.getD m default).state) := by
        intro cm hR m
        rcases hR m with hr | ⟨ha, hb⟩
        · rw [hr]; exact Or.inl rfl
        · rw [hb]; exact Or.inr (Or.inl ⟨ha, rfl⟩)
      have hkeyRS : ∀ (cm : Country) (p : Patient) (s : PState),
          (s = PState.recovered ∨ s = PState.dead) →
          (∀ m, ((cm.patients.getD m default).state = (c.patients.getD m default).state ∨
            ((c.patients.getD m default).state = PState.healthy ∧
              (cm.patients.getD m default).state = PState.infected))) →
          stepRel ((c.patients.getD j default).state)
            (((releaseAndSet cm i p s).patients.getD j default).state) := by
        intro cm p s hscase hR
        rw [releaseAndSet_state]
        split_ifs with hc
        · rcases hc with ⟨hj, _⟩
          subst hj
          exact Or.inr (Or.inr ⟨hstate, hscase⟩)
        · exact hRstep cm hR j
      have hkeySet : ∀ (cm : Country) (q : Patient),
          q.state = (cm.patients.getD i default).state →
          (∀ m, ((cm.patients.getD m default).state = (c.patients.getD m default).state ∨
            ((c.patients.getD m default).state = PState.healthy ∧
              (cm.patients.getD m default).state = PState.infected))) →
          stepRel ((c.patients.getD j default).state)
            (((cm.patients.set i q).getD j default).state) := by
        intro cm q hq hR
        rw [getD_set]
        split_ifs with hc
        · rcases hc with ⟨hj, _⟩
          subst hj
          rw [hq]
          exact hRstep cm hR j
        · exact hRstep cm hR j
      unfold infection_step
      dsimp only
      rw [if_neg htop]
      split_ifs with hdays hdeath hfinal hdeath2 hfinal2
      · exact hkeyRS _ _ _ (Or.inr rfl)
          (hRmid _ (fun m => infect_contacts_state _ _ _ _ _ m))
      · exact hkeyRS _ _ _ (finalOutcome_cases _ _ _)
          (hRmid _ (fun m => infect_contacts_state _ _ _ _ _ m))
      · exact hkeySet _ _ rfl (hRmid _ (fun m => infect_contacts_state _ _ _ _ _ m))
      · exact hkeyRS _ _ _ (Or.inr rfl) (fun m => Or.inl (f1 m))
      · exact hkeyRS _ _ _ (finalOutcome_cases _ _ _) (fun m => Or.inl (f1 m))
      · exact hkeySet _ _ rfl (fun m => Or.inl (f1 m))

/-- Witness for claim C3 at a concrete input: the step on a healthy patient
is a no-op, and the transition relation holds for the touched slot. -/
theorem claim_C3_witness :
    infection_step healthyCountry 0 1 infOracleW = healthyCountry ∧
      stepRel ((healthyCountry.patients.getD 0 default).state)
        (((infection_step healthyCountry 0 1 infOracleW).patients.getD 0 default).state) := by
  have h := claim_C3_state_machine healthyCountry 0 1 infOracleW
  exact ⟨h.1 (Or.inl (by decide)), h.2 0⟩

/-! ## Seeding lemmas (claim C9) -/

theorem getD_map_lt {α β : Type} (f : α → β) (l : List α) (n : Nat) (d : β) (d2 : α)
    (h : n < l.length) :
    (l.map f).getD n d = f (l.getD n d2) := by
  rw [List.getD_eq_getElem (l.map f) d (by simpa using h), List.getD_eq_getElem l d2 h,
    List.getElem_map]

/-- The allocator never changes the number of infected patients. -/
theorem allocate_countP (c : Country) (i choice : Nat) :
    List.countP (fun p => p.state == PState.infected)
        (allocate_treatment_if_budget c i choice).patients
      = List.countP (fun p => p.state == PState.infected) c.patients := by
  have key : ∀ (q : Patient), q.state = (c.patients.getD i default).state →
      List.countP (fun p => p.state == PState.infected) (c.patients.set i q)
        = List.countP (fun p => p.state == PState.infected) c.patients := by
    intro q hq
    by_cases hi : i < c.patients.length
    · have h2 := countP_set (fun p => p.state == PState.infected) c.patients i q default hi
      dsimp only at h2
      rw [hq] at h2
      omega
    · rw [List.set_eq_of_length_le (le_of_not_lt hi)]
  unfold allocate_treatment_if_budget finishHosp
  dsimp only
  split_ifs <;> exact key _ rfl

/-- One seeded infection at a valid roster slot: the slot ends infected with
the drawn infectious period assigned. -/
theorem seedOne_self (c : Country) (j per choice : Nat) (hj : j < c.patients.length) :
    ((seedOne c j per choice).patients.getD j default).state = PState.infected ∧
      ((seedOne c j per choice).patients.getD j default).infectious_period = some per := by
  unfold seedOne
  dsimp only
  constructor
  · rw [allocate_state_eq]
    dsimp only
    rw [getD_set_self _ _ _ _ hj]
  · rw [allocate_period_eq]
    dsimp only
    rw [getD_set_self _ _ _ _ hj]

/-- One seeded infection leaves the other roster slots untouched. -/
theorem seedOne_other (c : Country) (j per choice m : Nat) (hm : m ≠ j) :
    (seedOne c j per choice).patients.getD m default = c.patients.getD m default := by
  unfold seedOne
  dsimp only
  rw [allocate_other_eq _ _ _ _ hm]
  dsimp only
  rw [getD_set_ne _ _ _ _ _ hm]

/-- One seeded infection keeps the roster length. -/
theorem seedOne_length (c : Country) (j per choice : Nat) :
    (seedOne c j per choice).patients.length = c.patients.length := by
  unfold seedOne
  dsimp only
  rw [(allocate_frame _ _ _).1]
  dsimp only
  rw [List.length_set]

/-- The seeding loop over distinct valid roster indices: every sampled slot
ends infected with an assigned period; the other slots are untouched. -/
theorem seedLoop_spec (o : SeedOracle) (l : List (Nat × Nat)) (c : Country)
    (hnd : (l.map Prod.snd).Nodup)
    (hbound : ∀ pj ∈ l, pj.2 < c.patients.length) :
    (seedLoop o c l).patients.length = c.patients.length ∧
      (∀ pj ∈ l, ((seedLoop o c l).patients.getD pj.2 default).state = PState.infected ∧
        ((seedLoop o c l).patients.getD pj.2 default).infectious_period ≠ none) ∧
      ∀ m, m ∉ l.map Prod.snd →
        (seedLoop o c l).patients.getD m default = c.patients.getD m default := by
  induction l generalizing c with
  | nil => exact ⟨rfl, by simp, fun m _ => rfl⟩
  | cons pj rest ih =>
    rcases pj with ⟨pos, j⟩
    simp only [List.map_cons, List.nodup_cons] at hnd
    obtain ⟨hjnr, hndr⟩ := hnd
    have hj : j < c.patients.length := hbound _ (List.mem_cons_self _ _)
    simp only [seedLoop]
    obtain ⟨ihlen, ihmem, ihother⟩ := ih (seedOne c j (o.period pos) (o.choice pos)) hndr
      (by
        intro q hq
        rw [seedOne_length]
        exact hbound _ (List.mem_cons_of_mem _ hq))
    refine ⟨by rw [ihlen, seedOne_length], ?_, ?_⟩
    · intro q hq
      rcases List.mem_cons.mp hq with hq1 | hq2
      · subst hq1
        dsimp only
        rw [ihother j hjnr]
        obtain ⟨h1, h2⟩ := seedOne_self c j (o.period pos) (o.choice pos) hj
        exact ⟨h1, by rw [h2]; simp⟩
      · exact ihmem q hq2
    · intro m hm
      have hmj : m ≠ j := fun hc => hm (by rw [hc]; exact List.mem_cons_self _ _)
      have hmr : m ∉ rest.map Prod.snd := fun hc => hm (List.mem_cons_of_mem _ hc)
      rw [ihother m hmr, seedOne_other _ _ _ _ _ hmj]

/-- The seeding loop adds exactly one infected patient per sampled slot,
provided the sampled slots are distinct, valid and currently healthy. -/
theorem seedLoop_count (o : SeedOracle) (l : List (Nat × Nat)) (c : Country)
    (hnd : (l.map Prod.snd).Nodup)
    (hbound : ∀ pj ∈ l, pj.2 < c.patients.length)
    (hhealthy : ∀ pj ∈ l, (c.patients.getD pj.2 default).state = PState.healthy) :
    List.countP (fun p => p.state == PState.infected) (seedLoop o c l).patients
      = List.countP (fun p => p.state == PState.infected) c.patients + l.length := by
  induction l generalizing c with
  | nil => simp [seedLoop]
  | cons pj rest ih =>
    rcases pj with ⟨pos, j⟩
    simp only [List.map_cons, List.nodup_cons] at hnd
    obtain ⟨hjnr, hndr⟩ := hnd
    have hj : j < c.patients.length := hbound _ (List.mem_cons_self _ _)
    have hjh : (c.patients.getD j default).state = PState.healthy :=
      hhealthy _ (List.mem_cons_self _ _)
    simp only [seedLoop]
    have hone : List.countP (fun p => p.state == PState.infected)
        (seedOne c j (o.period pos) (o.choice pos)).patients
        = List.countP (fun p => p.state == PState.infected) c.patients + 1 := by
      unfold seedOne
      dsimp only
      rw [allocate_countP]
      dsimp only
      have h2 := countP_set (fun p => p.state == PState.infected) c.patients j
        { c.patients.getD j default with
          state := PState.infected
          infectious_period := some (o.period pos) } default hj
      dsimp only at h2
      rw [hjh] at h2
      rw [if_neg (by decide), if_pos (by decide)] at h2
      omega
    rw [ih (seedOne c j (o.period pos) (o.choice pos)) hndr
      (by
        intro q hq
        rw [seedOne_length]
        exact hbound _ (List.mem_cons_of_mem _ hq))
      (by
        intro q hq
        have hqj : q.2 ≠ j := by
          intro hc
          exact hjnr (hc ▸ List.mem_map_of_mem Prod.snd hq)
        rw [seedOne_other _ _ _ _ _ hqj]
        exact hhealthy _ (List.mem_cons_of_mem _ hq)), hone]
    simp only [List.length_cons]
    omega

set_option maxHeartbeats 800000 in
/-- Claim C9: seeding fails (with the fatal `ValueError`) iff no country is
named Italy; when Italy exists and `int(len(italy.patients) *
INITIAL_INFECTED_FRAC)` is not positive, seeding returns normally with zero
infected patients anywhere; otherwise it returns normally and exactly that
many patients of Italy's roster are infected, each with an infectious
period assigned. -/
theorem claim_C9_seed_virus (cs : List Country) (o : SeedOracle) :
    ((∀ cc ∈ cs, ¬ cc.name = "Italy") →
        seed_virus cs o = Except.error "Italy should exist to seed the virus") ∧
      ((∃ e, seed_virus cs o = Except.error e) → ∀ cc ∈ cs, ¬ cc.name = "Italy") ∧
      (∀ it, cs.findIdx? (fun cc => cc.name == "Italy") = some it →
        ((Int.floor (((cs.getD it default).patients.length : ℚ) * INITIAL_INFECTED_FRAC) ≤ 0 →
          ∃ cs2, seed_virus cs o = Except.ok cs2 ∧
            ∀ cc ∈ cs2,
              List.countP (fun p => p.state == PState.infected) cc.patients = 0) ∧
         (∀ k : Nat,
            Int.floor (((cs.getD it default).patients.length : ℚ) * INITIAL_INFECTED_FRAC)
              = (k : Int) →
            0 < k →
            k ≤ o.sample.length →
            (o.sample.take k).Nodup →
            (∀ j ∈ o.sample.take k, j < (cs.getD it default).patients.length) →
            ∃ cs2, seed_virus cs o = Except.ok cs2 ∧
              List.countP (fun p => p.state == PState.infected)
                (cs2.getD it default).patients = k ∧
              ∀ p ∈ (cs2.getD it default).patients,
                p.state = PState.infected → p.infectious_period ≠ none))) := by
  have hfind : (cs.map (fun c =>
        { c with patients := c.patients.map Patient.reset })).findIdx?
      (fun cc => cc.name == "Italy") = cs.findIdx? (fun cc => cc.name == "Italy") := by
    rw [List.findIdx?_map]
    rfl
  refine ⟨?_, ?_, ?_⟩
  · intro hno
    have hnone : cs.findIdx? (fun cc => cc.name == "Italy") = none := by
      rw [List.findIdx?_eq_none_iff]
      intro x hx
      simp [hno x hx]
    unfold seed_virus
    dsimp only
    rw [hfind, hnone]
  · rintro ⟨e, he⟩ cc hcc hname
    have hex : ∃ x, x ∈ cs ∧ (fun c : Country => c.name == "Italy") x =
        true := ⟨cc, hcc, by simp [hname]⟩
    have hit := List.findIdx?_eq_some_of_exists hex
    unfold seed_virus at he
    dsimp only at he
    rw [hfind, hit] at he
    dsimp only at he
    split_ifs at he <;> simp at he
  · intro it hit
    have hit_lt : it < cs.length := (List.findIdx?_eq_some_iff_findIdx_eq.mp hit).1
    have hgetD : (cs.map (fun c =>
          { c with patients := c.patients.map Patient.reset })).getD it default
        = { cs.getD it default with
            patients := (cs.getD it default).patients.map Patient.reset } :=
      getD_map_lt _ _ _ _ _ hit_lt
    have hzero : ∀ (ps : List Patient),
        List.countP (fun p => p.state == PState.infected) (ps.map Patient.reset) = 0 := by
      intro ps
      rw [List.countP_eq_zero]
      intro p hp
      obtain ⟨q, -, rfl⟩ := List.mem_map.mp hp
      simp [Patient.reset]
    constructor
    · intro hk0
      refine ⟨cs.map (fun c => { c with patients := c.patients.map Patient.reset }), ?_, ?_⟩
      · unfold seed_virus
        dsimp only
        rw [hfind, hit]
        dsimp only
        rw [hgetD]
        dsimp only
        rw [if_pos (by rw [List.length_map]; exact hk0)]
      · intro cc hcc
        obtain ⟨x, -, rfl⟩ := List.mem_map.mp hcc
        exact hzero x.patients
    · intro k hk hkpos hklen hknd hkbound
      have hkno : ¬ Int.floor ((((cs.getD it default).patients.map
            Patient.reset).length : ℚ) * INITIAL_INFECTED_FRAC) ≤ 0 := by
        rw [List.length_map, hk]
        omega
      have hktoNat : (Int.floor ((((cs.getD it default).patients.map
            Patient.reset).length : ℚ) * INITIAL_INFECTED_FRAC)).toNat = k := by
        rw [List.length_map, hk]
        omega
      refine ⟨(cs.map (fun c =>
          { c with patients := c.patients.map Patient.reset })).set it
            (seedLoop o { cs.getD it default with
                patients := (cs.getD it default).patients.map Patient.reset }
              ((o.sample.take k).enum)), ?_, ?_, ?_⟩
      · unfold seed_virus
        dsimp only
        rw [hfind, hit]
        dsimp only
        rw [hgetD]
        dsimp only
        rw [if_neg hkno, hktoNat]
      · rw [getD_set_self _ _ _ _ (by rw [List.length_map]; exact hit_lt)]
        have hcount := seedLoop_count o ((o.sample.take k).enum)
          { cs.getD it default with
            patients := (cs.getD it default).patients.map Patient.reset }
          (by rw [List.enum_map_snd]; exact hknd)
          (by
            intro pj hpj
            have : pj.2 ∈ o.sample.take k := by
              rw [← List.enum_map_snd (o.sample.take k)]
              exact List.mem_map_of_mem Prod.snd hpj
            dsimp only
            rw [List.length_map]
            exact hkbound _ this)
          (by
            intro pj hpj
            have hmem : pj.2 ∈ o.sample.take k := by
              rw [← List.enum_map_snd (o.sample.take k)]
              exact List.mem_map_of_mem Prod.snd hpj
            dsimp only
            rw [getD_map_lt Patient.reset _ _ _ default (hkbound _ hmem)]
            rfl)
        rw [hcount]
        dsimp only
        rw [hzero, List.enum_length, List.length_take]
        omega
      · rw [getD_set_self _ _ _ _ (by rw [List.length_map]; exact hit_lt)]
        obtain ⟨hslen, hsmem, hsout⟩ := seedLoop_spec o ((o.sample.take k).enum)
          { cs.getD it default with
            patients := (cs.getD it default).patients.map Patient.reset }
          (by rw [List.enum_map_snd]; exact hknd)
          (by
            intro pj hpj
            have : pj.2 ∈ o.sample.take k := by
              rw [← List.enum_map_snd (o.sample.take k)]
              exact List.mem_map_of_mem Prod.snd hpj
            dsimp only
            rw [List.length_map]
            exact hkbound _ this)
        intro p hp hstate
        obtain ⟨m, hm, rfl⟩ := List.mem_iff_getElem.mp hp
        rw [← List.getD_eq_getElem _ default hm] at hstate ⊢
        by_cases hmem : m ∈ o.sample.take k
        · have hmm : m ∈ ((o.sample.take k).enum).map Prod.snd := by
            rw [List.enum_map_snd]
            exact hmem
          obtain ⟨pj, hpj, hpj2⟩ := List.mem_map.mp hmm
          have hper := (hsmem pj hpj).2
          rw [hpj2] at hper
          exact hper
        · exfalso
          have hsame := hsout m (by rw [List.enum_map_snd]; exact hmem)
          rw [hsame] at hstate
          have hmn : m < (cs.getD it default).patients.length := by
            rw [hslen] at hm
            dsimp only at hm
            rw [List.length_map] at hm
            exact hm
          rw [show ({ cs.getD it default with
              patients := (cs.getD it default).patients.map Patient.reset }
                : Country).patients = (cs.getD it default).patients.map Patient.reset
              from rfl,
            getD_map_lt Patient.reset _ _ _ default hmn] at hstate
          simp [Patient.reset] at hstate

/-- A ten-patient Italy for the seeding witness (so `initial_k = 1`). -/
def seedCountry : Country :=
  { baseCountry with patients := List.replicate 10 basePatient }

/-- The concrete sampling oracle for the seeding witness. -/
def seedOracleW : SeedOracle :=
  { sample := [0], period := fun _ => 5, choice := fun _ => 0 }

/-- Witness for claim C9 at a concrete input: a ten-patient Italy with
`INITIAL_INFECTED_FRAC = 1/10` seeds exactly one infected patient, with an
infectious period assigned. -/
theorem claim_C9_witness :
    ∃ cs2, seed_virus [seedCountry] seedOracleW = Except.ok cs2 ∧
      List.countP (fun p => p.state == PState.infected) (cs2.getD 0 default).patients = 1 ∧
      ∀ p ∈ (cs2.getD 0 default).patients,
        p.state = PState.infected → p.infectious_period ≠ none := by
  have h := (claim_C9_seed_virus [seedCountry] seedOracleW).2.2 0 (by rfl)
  refine h.2 1 ?_ (by decide) (by decide) (by decide) (by decide)
  have hlen : ((([seedCountry].getD 0 default).patients.length : ℚ))
      * INITIAL_INFECTED_FRAC = 1 := by
    norm_num [seedCountry, baseCountry, INITIAL_INFECTED_FRAC]
  rw [hlen]
  exact Int.floor_one

end EpiSim
